import Mathlib

/-!
# Verification of `application.hpp` (compression example, C++11)

Shallow embedding of `examples/connext_dds/compression/c++11/application.hpp`:
the signal handler `stop_handler`, the verbosity mapping `set_verbosity` and
the command-line scanner `parse_arguments`.

Conventions of the embedding.

* `argv` is a `List String`; `argc` is its length.  A token is a C string, so
  `strcmp(a, b) == 0` is equality of tokens.
* `unsigned int` fields are `Nat` values below `2^32`; `int` values are `Int`
  values in `[-2^31, 2^31)`.  The conversions are explicit (`to_unsigned`,
  `to_int`).
* Text written to `std::cout` is a `List String`: one entry per
  `std::cout << text << std::endl` statement, in the order written.
* Reading `argv[i]` with `i` outside `0 .. argc-1` is the fault
  `Fault.out_of_bounds`; the `while` loop runs on fuel and running out of it is
  the fault `Fault.out_of_fuel`.
-/

namespace application

/-! ## Data model -/

/-- Result tag of the scanner: `enum class ParseReturn`. -/
inductive ParseReturn where
  | ok
  | failure
  | exit
  deriving DecidableEq

/-- The levels of `rti::config::Verbosity` that the file names. -/
inductive Verbosity where
  | SILENT
  | EXCEPTION
  | WARNING
  | STATUS_ALL
  deriving DecidableEq

/-- The value object returned by the scanner: `struct ApplicationArguments`. -/
structure ApplicationArguments where
  parse_result : ParseReturn
  domain_id : Nat
  sample_count : Nat
  max_string_length : Nat
  compression_id : String
  input_file : String
  verbosity : Verbosity
  deriving DecidableEq

/-- Ways in which a run of the model can go wrong. -/
inductive Fault where
  | out_of_bounds
  | out_of_fuel
  deriving DecidableEq

/-! ## Signal handling -/

/-- The part of the process that the signal path touches: the global
`shutdown_requested`, the text written to `std::cout`, and the signal numbers
for which `stop_handler` is installed. -/
structure Process where
  shutdown_requested : Bool
  cout : List String
  handled : List Int
  deriving DecidableEq

/-- State at program start: `bool shutdown_requested = false`, nothing written,
no handler installed. -/
def Process.initial : Process :=
  { shutdown_requested := false, cout := [], handled := [] }

/-- The function `stop_handler(int)`: sets the flag and writes the notice. The
signal number is not looked at. -/
def stop_handler (_sig : Int) (p : Process) : Process :=
  { p with
    shutdown_requested := true
    cout := p.cout ++ ["preparing to shut down..."] }

/-- Signal number of `SIGINT`. -/
def SIGINT : Int := 2

/-- Signal number of `SIGTERM`. -/
def SIGTERM : Int := 15

/-- The function `setup_signal_handlers()`: installs `stop_handler` for
`SIGINT` and `SIGTERM`. -/
def setup_signal_handlers (p : Process) : Process :=
  { p with handled := SIGTERM :: SIGINT :: p.handled }

/-! ## Machine integers and `atoi` -/

/-- Largest `unsigned int`: `std::numeric_limits<unsigned int>::max()`. -/
def UINT_MAX : Nat := 4294967295

/-- Smallest `int`. -/
def INT_MIN : Int := -2147483648

/-- Largest `int`. -/
def INT_MAX : Int := 2147483647

/-- Conversion of an `int` to `unsigned int`: the value modulo `2^32`. -/
def to_unsigned (n : Int) : Nat := (n % 4294967296).toNat

/-- Truncation of a wider integer to `int` (two's complement, 32 bits). -/
def to_int (n : Int) : Int :=
  let r := n % 4294967296
  if r < 2147483648 then r else r - 4294967296

/-- Saturation to the range of `long` (64 bits), as `strtol` does. -/
def clamp_long (n : Int) : Int :=
  if n < -9223372036854775808 then -9223372036854775808
  else if 9223372036854775807 < n then 9223372036854775807
  else n

/-- The C predicate `isspace` in the "C" locale: space, `\t`, `\n`, `\v`, `\f`,
`\r`. -/
def isspace (c : Char) : Bool :=
  c.toNat = 32 || (9 ≤ c.toNat && c.toNat ≤ 13)

/-- The C predicate `isdigit`. -/
def isdigit (c : Char) : Bool :=
  48 ≤ c.toNat && c.toNat ≤ 57

/-- Value of the longest run of decimal digits at the front of `cs`, on top of
the value `acc` read so far. -/
def digits_value : List Char → Nat → Nat
  | [], acc => acc
  | c :: cs, acc => if isdigit c then digits_value cs (acc * 10 + (c.toNat - 48)) else acc

/-- Sign and magnitude that `atoi` reads: leading white space is skipped, one
optional `+` or `-` is taken, then the longest run of digits. -/
def atoi_parts (cs : List Char) : Bool × Nat :=
  match cs.dropWhile isspace with
  | '-' :: ds => (true, digits_value ds 0)
  | '+' :: ds => (false, digits_value ds 0)
  | ds => (false, digits_value ds 0)

/-- The C library function `atoi`, which the file calls and does not define.
For a token whose leading integer fits in an `int` it returns that integer, and
`0` when there is no leading integer.  ISO C leaves the result undefined
when the integer does not fit; the model then does what
`(int) strtol(s, NULL, 10)` does on an LP64 platform: saturate to `long` and
truncate to `int`. -/
def atoi (s : String) : Int :=
  let p := atoi_parts s.toList
  to_int (clamp_long (if p.1 then -(p.2 : Int) else (p.2 : Int)))

/-! ## Verbosity -/

/-- The function `set_verbosity`: the `switch` on the integer; the level is
returned instead of being stored through the reference. -/
def set_verbosity (verbosity_value : Int) : Verbosity :=
  if verbosity_value = 0 then Verbosity.SILENT
  else if verbosity_value = 1 then Verbosity.EXCEPTION
  else if verbosity_value = 2 then Verbosity.WARNING
  else if verbosity_value = 3 then Verbosity.STATUS_ALL
  else Verbosity.EXCEPTION

/-! ## The scanner -/

/-- Local variables of `parse_arguments`, together with the text written to
`std::cout` so far. -/
structure ParseState where
  arg_processing : Nat
  show_usage : Bool
  parse_result : ParseReturn
  domain_id : Nat
  sample_count : Nat
  max_string_length : Nat
  compression_id : String
  input_file : String
  verbosity : Verbosity
  cout : List String
  deriving DecidableEq

/-- The locals as initialised at the top of `parse_arguments`. -/
def ParseState.initial : ParseState :=
  { arg_processing := 1
    show_usage := false
    parse_result := ParseReturn.ok
    domain_id := 0
    sample_count := UINT_MAX
    max_string_length := 4096
    compression_id := ""
    input_file := ""
    verbosity := Verbosity.EXCEPTION
    cout := [] }

/-- The usage text, one string literal in the source (adjacent literals are
concatenated by the compiler). -/
def usage_text : String :=
  "Usage:\n" ++
  "    -d, --domain       <int>   Domain ID this application will\n" ++
  "                               subscribe in.  \n" ++
  "                               Default: 0\n" ++
  "    -s, --sample-count <int>   Number of samples to receive before\n" ++
  "                               cleanly shutting down. \n" ++
  "                               Default: infinite\n" ++
  "    -s, --max-string-length <int> Max size of a single line from the \n" ++
  "                               input file.\n" ++
  "                               Default: 4098\n" ++
  "    -c, --compression-id <string> Enable or disable compression with\n" ++
  "                               a given compression algorithm. \n" ++
  "                               Accepted values: NONE, LZ4, ZLIB, BZIP2\n" ++
  "                               Default: LZ4\n" ++
  "    -i, --input-file <string>  Path to the file to read. The file\n" ++
  "                               will be read line by line (each line\n" ++
  "                               represent a sample). If no file is\n" ++
  "                               given a 1K sample filled with zeros\n" ++
  "                               will be sent\n" ++
  "    -v, --verbosity    <int>   How much debugging output to show.\n" ++
  "                               Range: 0-3 \n" ++
  "                               Default: 1"

/-- The read `argv[i]`. -/
def read_arg (argv : List String) (i : Nat) : Except Fault String :=
  match argv[i]? with
  | some a => Except.ok a
  | none => Except.error Fault.out_of_bounds

/-- The test `strcmp(argv[i], s) == 0 || strcmp(argv[i], l) == 0`. -/
def arg_is (argv : List String) (i : Nat) (s l : String) : Except Fault Bool :=
  match read_arg argv i with
  | Except.ok a => Except.ok (decide (a = s ∨ a = l))
  | Except.error e => Except.error e

/-- The test `(argc > i + 1) && (strcmp(argv[i], s) == 0 || strcmp(argv[i], l) == 0)`;
`&&` does not evaluate its right operand when the left one is false. -/
def value_flag_at (argv : List String) (i : Nat) (s l : String) : Except Fault Bool :=
  if argv.length > i + 1 then arg_is argv i s l else Except.ok false

/-- How one run of the loop body ends: at the end of the body (`next`) or at a
`break` (`stop`). -/
inductive Flow where
  | next
  | stop
  deriving DecidableEq

/-- The branch of the loop body taken when a value flag was recognised: read
`argv[arg_processing + 1]`, store it with `store`, and advance by two. -/
def take_value (argv : List String) (st : ParseState)
    (store : String → ParseState → ParseState) : Except Fault (Flow × ParseState) :=
  match read_arg argv (st.arg_processing + 1) with
  | Except.ok v =>
    Except.ok (Flow.next, { store v st with arg_processing := st.arg_processing + 2 })
  | Except.error e => Except.error e

/-- The `-h` / `--help` branch: banner, `show_usage`, status `exit`, `break`. -/
def help_branch (st : ParseState) : Flow × ParseState :=
  (Flow.stop, { st with
    cout := st.cout ++ ["Example application."]
    show_usage := true
    parse_result := ParseReturn.exit })

/-- The final `else` branch: `Bad parameter.`, `show_usage`, status `failure`,
`break`. -/
def bad_branch (st : ParseState) : Flow × ParseState :=
  (Flow.stop, { st with
    cout := st.cout ++ ["Bad parameter."]
    show_usage := true
    parse_result := ParseReturn.failure })

/-- One run of the body of the `while` loop of `parse_arguments`: the chain of
`if` / `else if` in the order of the source. -/
def loop_body (argv : List String) (st : ParseState) : Except Fault (Flow × ParseState) :=
  let i := st.arg_processing
  match value_flag_at argv i "-d" "--domain" with
  | Except.error e => Except.error e
  | Except.ok true =>
    take_value argv st (fun v s => { s with domain_id := to_unsigned (atoi v) })
  | Except.ok false =>
  match value_flag_at argv i "-s" "--sample-count" with
  | Except.error e => Except.error e
  | Except.ok true =>
    take_value argv st (fun v s => { s with sample_count := to_unsigned (atoi v) })
  | Except.ok false =>
  match value_flag_at argv i "-m" "--max-string-length" with
  | Except.error e => Except.error e
  | Except.ok true =>
    take_value argv st (fun v s => { s with max_string_length := to_unsigned (atoi v) })
  | Except.ok false =>
  match value_flag_at argv i "-c" "--compression-id" with
  | Except.error e => Except.error e
  | Except.ok true =>
    take_value argv st (fun v s => { s with compression_id := v })
  | Except.ok false =>
  match value_flag_at argv i "-i" "--input-file" with
  | Except.error e => Except.error e
  | Except.ok true =>
    take_value argv st (fun v s => { s with input_file := v })
  | Except.ok false =>
  match value_flag_at argv i "-v" "--verbosity" with
  | Except.error e => Except.error e
  | Except.ok true =>
    take_value argv st (fun v s => { s with verbosity := set_verbosity (atoi v) })
  | Except.ok false =>
  match arg_is argv i "-h" "--help" with
  | Except.error e => Except.error e
  | Except.ok true => Except.ok (help_branch st)
  | Except.ok false => Except.ok (bad_branch st)

/-- The loop `while (arg_processing < argc) { ... }`, run for at most `fuel`
iterations. -/
def scan_loop (argv : List String) : Nat → ParseState → Except Fault ParseState
  | 0, st =>
    if st.arg_processing < argv.length then Except.error Fault.out_of_fuel else Except.ok st
  | fuel + 1, st =>
    if st.arg_processing < argv.length then
      match loop_body argv st with
      | Except.error e => Except.error e
      | Except.ok (Flow.next, st') => scan_loop argv fuel st'
      | Except.ok (Flow.stop, st') => Except.ok st'
    else Except.ok st

/-- The statement `if (show_usage) { std::cout << "Usage: ..." << std::endl; }`. -/
def print_usage (st : ParseState) : ParseState :=
  if st.show_usage then { st with cout := st.cout ++ [usage_text] } else st

/-- What a call of `parse_arguments` produces: the returned object and the text
written to `std::cout`. -/
structure ParseOutcome where
  args : ApplicationArguments
  cout : List String
  deriving DecidableEq

/-- The final `return ApplicationArguments(...)`. -/
def ParseState.outcome (st : ParseState) : ParseOutcome :=
  { args :=
      { parse_result := st.parse_result
        domain_id := st.domain_id
        sample_count := st.sample_count
        max_string_length := st.max_string_length
        compression_id := st.compression_id
        input_file := st.input_file
        verbosity := st.verbosity }
    cout := st.cout }

/-- The function `parse_arguments(argc, argv)` with `argc = argv.length`. The
loop is given `argc` iterations of fuel. -/
def parse_arguments (argv : List String) : Except Fault ParseOutcome :=
  match scan_loop argv argv.length ParseState.initial with
  | Except.ok st => Except.ok (print_usage st).outcome
  | Except.error e => Except.error e

/-- Number of times the body of the `while` loop runs in `scan_loop`: the same
recursion, counting the runs instead of returning the state. -/
def loop_runs (argv : List String) : Nat → ParseState → Nat
  | 0, _ => 0
  | fuel + 1, st =>
    if st.arg_processing < argv.length then
      match loop_body argv st with
      | Except.ok (Flow.next, st') => 1 + loop_runs argv fuel st'
      | _ => 1
    else 0

/-! ## A view of the scanner on the list of remaining tokens

The definitions of this section are proof devices: `scan_loop` is shown to
compute `scan_tokens` on the tokens from `arg_processing` on. -/

/-- The store that the loop body performs for the flag token `a`, if `a` is one
of the value flags; the tests are in the order of the source. -/
def flag_store (a : String) : Option (String → ParseState → ParseState) :=
  if a = "-d" ∨ a = "--domain" then
    some (fun v s => { s with domain_id := to_unsigned (atoi v) })
  else if a = "-s" ∨ a = "--sample-count" then
    some (fun v s => { s with sample_count := to_unsigned (atoi v) })
  else if a = "-m" ∨ a = "--max-string-length" then
    some (fun v s => { s with max_string_length := to_unsigned (atoi v) })
  else if a = "-c" ∨ a = "--compression-id" then
    some (fun v s => { s with compression_id := v })
  else if a = "-i" ∨ a = "--input-file" then
    some (fun v s => { s with input_file := v })
  else if a = "-v" ∨ a = "--verbosity" then
    some (fun v s => { s with verbosity := set_verbosity (atoi v) })
  else none

/-- The token is `-h` or `--help`. -/
def is_help (a : String) : Bool :=
  decide (a = "-h" ∨ a = "--help")

/-- The state in which the loop stops at a token that is not consumed as a
value flag. -/
def stop_state (a : String) (st : ParseState) : ParseState :=
  if is_help a then (help_branch st).2 else (bad_branch st).2

/-- The effect of a consumed pair: the store, then `arg_processing += 2`. -/
def advance (f : String → ParseState → ParseState) (v : String) (st : ParseState) :
    ParseState :=
  { f v st with arg_processing := st.arg_processing + 2 }

/-- The scan as a recursion on the tokens still to be read. -/
def scan_tokens : List String → ParseState → ParseState
  | [], st => st
  | [a], st => stop_state a st
  | a :: v :: rest, st =>
    match flag_store a with
    | some f => scan_tokens rest (advance f v st)
    | none => stop_state a st

/-- The token is one of the twelve spellings of the six value flags. -/
def is_value_flag (a : String) : Bool :=
  decide (a ∈ ["-d", "--domain", "-s", "--sample-count", "-m", "--max-string-length",
    "-c", "--compression-id", "-i", "--input-file", "-v", "--verbosity"])

/-- The token is one of the recognized flags: a value flag, `-h` or `--help`. -/
def is_recognized (a : String) : Bool :=
  is_value_flag a || is_help a

/-- The tokens of a list of (flag, value) pairs, in order. -/
def pairs_tokens : List (String × String) → List String
  | [] => []
  | p :: ps => p.1 :: p.2 :: pairs_tokens ps

/-- Every pair starts with a value flag. -/
def well_formed_pairs (ps : List (String × String)) : Bool :=
  ps.all (fun p => is_value_flag p.1)

/-- The effect of one (flag, value) pair on the locals, when the flag is a value
flag. -/
def apply_pair (p : String × String) (st : ParseState) : ParseState :=
  match flag_store p.1 with
  | some f => advance f p.2 st
  | none => st

/-- The effect of a list of (flag, value) pairs, left to right. -/
def apply_pairs (ps : List (String × String)) (st : ParseState) : ParseState :=
  ps.foldl (fun s p => apply_pair p s) st

/-! ## Vocabulary of the statements -/

/-- Value of a list of decimal digits, most significant first. -/
def decimal_value (cs : List Char) : Nat :=
  cs.foldl (fun acc c => acc * 10 + (c.toNat - 48)) 0

/-- The token is a decimal numeral of `n`: one or more digits, nothing else,
with value `n`. Leading zeros are allowed. -/
def is_numeral (tok : String) (n : Nat) : Bool :=
  !tok.toList.isEmpty && tok.toList.all isdigit && decide (decimal_value tok.toList = n)

/-- The token begins with a decimal integer: after the leading white space and
one optional sign there is a digit. -/
def begins_with_integer (tok : String) : Bool :=
  match tok.toList.dropWhile isspace with
  | [] => false
  | c :: cs =>
    if c = '-' ∨ c = '+' then
      match cs with
      | [] => false
      | d :: _ => isdigit d
    else isdigit c

/-- The verbosity level that a numeral stands for, as the usage text and the
spec give it: 0 silent, 1 errors only, 2 warnings, 3 full status; errors only
for any larger number. -/
def numeral_level : Nat → Verbosity
  | 0 => Verbosity.SILENT
  | 1 => Verbosity.EXCEPTION
  | 2 => Verbosity.WARNING
  | 3 => Verbosity.STATUS_ALL
  | _ => Verbosity.EXCEPTION

/-- The verbosity level that an integer stands for: errors only for a negative
integer, the level of `numeral_level` otherwise. -/
def level_of_value (n : Int) : Verbosity :=
  if n < 0 then Verbosity.EXCEPTION else numeral_level n.toNat

/-- The result object expected after a pair with the flag token `f` and the
value token `v`: for `-d`, `-s`, `-m` the field of the flag holds the integer
read from `v`, taken modulo `2^32`; for `-c`, `-i` it holds `v` itself; for `-v`
the verbosity is the level that the integer read from `v` stands for. Every
other field is kept. -/
def store_field (f v : String) (a : ApplicationArguments) : ApplicationArguments :=
  if f = "-d" ∨ f = "--domain" then
    { a with domain_id := (atoi v % 4294967296).toNat }
  else if f = "-s" ∨ f = "--sample-count" then
    { a with sample_count := (atoi v % 4294967296).toNat }
  else if f = "-m" ∨ f = "--max-string-length" then
    { a with max_string_length := (atoi v % 4294967296).toNat }
  else if f = "-c" ∨ f = "--compression-id" then { a with compression_id := v }
  else if f = "-i" ∨ f = "--input-file" then { a with input_file := v }
  else if f = "-v" ∨ f = "--verbosity" then { a with verbosity := level_of_value (atoi v) }
  else a

/-- The `default:` label of the `switch` in `set_verbosity` is the one taken for
the integer `n`. -/
def takes_default (n : Int) : Bool :=
  decide (n ≠ 0 ∧ n ≠ 1 ∧ n ≠ 2 ∧ n ≠ 3)

/-- The integer that the token begins with, as a mathematical integer: the sign
and the digits that `atoi` reads, before any conversion to `int`. -/
def leading_integer (tok : String) : Int :=
  let p := atoi_parts tok.toList
  if p.1 then -(p.2 : Int) else (p.2 : Int)

/-! # Theorems -/

/-! ## The loop and the token view -/

theorem getElem?_append_length (pre : List String) (a : String) (rest : List String) :
    (pre ++ a :: rest)[pre.length]? = some a := by
  induction pre with
  | nil => simp
  | cons p pre ih => simpa using ih

theorem read_arg_append (pre : List String) (a : String) (rest : List String) :
    read_arg (pre ++ a :: rest) pre.length = Except.ok a := by
  unfold read_arg
  rw [getElem?_append_length]

theorem read_arg_append_succ (pre : List String) (a v : String) (rest : List String) :
    read_arg (pre ++ a :: v :: rest) (pre.length + 1) = Except.ok v := by
  have h : (pre ++ a :: v :: rest) = (pre ++ [a]) ++ v :: rest := by simp
  have h2 : pre.length + 1 = (pre ++ [a]).length := by simp
  rw [h, h2, read_arg_append]

theorem loop_body_pair (pre : List String) (a v : String) (rest : List String)
    (st : ParseState) (hi : st.arg_processing = pre.length) :
    loop_body (pre ++ a :: v :: rest) st =
      match flag_store a with
      | some f => Except.ok (Flow.next, advance f v st)
      | none => Except.ok (Flow.stop, stop_state a st) := by
  have hlen : (pre ++ a :: v :: rest).length > pre.length + 1 := by simp
  have h0 := read_arg_append pre a (v :: rest)
  have h1 := read_arg_append_succ pre a v rest
  unfold loop_body flag_store
  simp only [value_flag_at, arg_is, take_value, hi, hlen, h0, h1, if_true]
  by_cases c1 : a = "-d" ∨ a = "--domain"
  · simp [c1, advance, hi]
  by_cases c2 : a = "-s" ∨ a = "--sample-count"
  · simp [c1, c2, advance, hi]
  by_cases c3 : a = "-m" ∨ a = "--max-string-length"
  · simp [c1, c2, c3, advance, hi]
  by_cases c4 : a = "-c" ∨ a = "--compression-id"
  · simp [c1, c2, c3, c4, advance, hi]
  by_cases c5 : a = "-i" ∨ a = "--input-file"
  · simp [c1, c2, c3, c4, c5, advance, hi]
  by_cases c6 : a = "-v" ∨ a = "--verbosity"
  · simp [c1, c2, c3, c4, c5, c6, advance, hi]
  by_cases c7 : a = "-h" ∨ a = "--help"
  · simp [c1, c2, c3, c4, c5, c6, c7, stop_state, is_help, help_branch, bad_branch]
  · simp [c1, c2, c3, c4, c5, c6, c7, stop_state, is_help, help_branch, bad_branch]

theorem loop_body_last (pre : List String) (a : String)
    (st : ParseState) (hi : st.arg_processing = pre.length) :
    loop_body (pre ++ [a]) st = Except.ok (Flow.stop, stop_state a st) := by
  have hlen : ¬ (pre ++ [a]).length > pre.length + 1 := by simp
  have h0 := read_arg_append pre a []
  unfold loop_body
  simp only [value_flag_at, arg_is, hi, hlen, h0, if_false]
  by_cases c7 : a = "-h" ∨ a = "--help"
  · simp [c7, stop_state, is_help, help_branch, bad_branch]
  · simp [c7, stop_state, is_help, help_branch, bad_branch]

theorem scan_loop_eq_scan_tokens (fuel : Nat) :
    ∀ (pre toks : List String) (st : ParseState),
      st.arg_processing = pre.length → toks.length ≤ 2 * fuel →
      scan_loop (pre ++ toks) fuel st = Except.ok (scan_tokens toks st) := by
  induction fuel with
  | zero =>
    intro pre toks st hi hlen
    have : toks = [] := List.length_eq_zero.mp (by omega)
    subst this
    simp [scan_loop, scan_tokens, hi]
  | succ fuel ih =>
    intro pre toks st hi hlen
    match toks with
    | [] => simp [scan_loop, scan_tokens, hi]
    | [a] =>
      have hlt : st.arg_processing < (pre ++ [a]).length := by simp [hi]
      simp only [scan_loop, hlt, if_true, loop_body_last pre a st hi, scan_tokens]
    | a :: v :: rest =>
      have hlt : st.arg_processing < (pre ++ a :: v :: rest).length := by simp [hi]
      simp only [scan_loop, hlt, if_true, loop_body_pair pre a v rest st hi, scan_tokens]
      cases hf : flag_store a with
      | none => rfl
      | some f =>
        simp only []
        have e : pre ++ a :: v :: rest = (pre ++ [a, v]) ++ rest := by simp
        rw [e]
        apply ih
        · simp [advance, hi]
        · simp only [List.length_cons] at hlen
          omega

theorem parse_arguments_cons (prog : String) (toks : List String) :
    parse_arguments (prog :: toks) =
      Except.ok (print_usage (scan_tokens toks ParseState.initial)).outcome := by
  have h := scan_loop_eq_scan_tokens (prog :: toks).length [prog] toks ParseState.initial rfl
    (by simp only [List.length_cons]; omega)
  have e : [prog] ++ toks = prog :: toks := rfl
  rw [e] at h
  simp only [parse_arguments, h]

theorem parse_arguments_nil :
    parse_arguments [] = Except.ok (print_usage ParseState.initial).outcome := rfl

/-! ## Reading numerals with `atoi` -/

theorem digits_value_all (cs : List Char) (h : cs.all isdigit = true) (acc : Nat) :
    digits_value cs acc = cs.foldl (fun a c => a * 10 + (c.toNat - 48)) acc := by
  induction cs generalizing acc with
  | nil => rfl
  | cons c cs ih =>
    simp only [List.all_cons, Bool.and_eq_true] at h
    simp only [digits_value, h.1, if_true, List.foldl_cons]
    exact ih h.2 _

theorem isspace_of_isdigit (c : Char) (h : isdigit c = true) : isspace c = false := by
  simp only [isdigit, Bool.and_eq_true, decide_eq_true_eq] at h
  simp only [isspace, Bool.or_eq_false_iff, decide_eq_false_iff_not, Bool.and_eq_false_iff]
  omega

theorem atoi_parts_digit (c : Char) (cs : List Char) (h : isdigit c = true) :
    atoi_parts (c :: cs) = (false, digits_value (c :: cs) 0) := by
  have hs := isspace_of_isdigit c h
  have h1 : c ≠ '-' := by rintro rfl; exact absurd h (by decide)
  have h2 : c ≠ '+' := by rintro rfl; exact absurd h (by decide)
  unfold atoi_parts
  simp only [List.dropWhile, hs]
  split
  · rename_i heq; simp only [List.cons.injEq] at heq; exact absurd heq.1 h1
  · rename_i heq; simp only [List.cons.injEq] at heq; exact absurd heq.1 h2
  · rfl

theorem atoi_parts_minus (cs : List Char) :
    atoi_parts ('-' :: cs) = (true, digits_value cs 0) := by
  unfold atoi_parts
  have : isspace '-' = false := by decide
  simp only [List.dropWhile, this]

theorem to_int_clamp_of_range (n : Int) (h1 : INT_MIN ≤ n) (h2 : n ≤ INT_MAX) :
    to_int (clamp_long n) = n := by
  unfold INT_MIN at h1
  unfold INT_MAX at h2
  have hc : clamp_long n = n := by
    unfold clamp_long
    rw [if_neg (by omega), if_neg (by omega)]
  rw [hc]
  unfold to_int
  by_cases h : n % 4294967296 < 2147483648
  · simp only [h, if_true]; omega
  · simp only [h, if_false]; omega


theorem atoi_of_numeral (tok : String) (n : Nat) (h : is_numeral tok n = true)
    (hn : (n : Int) ≤ INT_MAX) : atoi tok = (n : Int) := by
  simp only [is_numeral, Bool.and_eq_true, decide_eq_true_eq, Bool.not_eq_true',
    List.isEmpty_eq_false] at h
  obtain ⟨⟨hne, hall⟩, hval⟩ := h
  cases hcs : tok.toList with
  | nil => exact absurd hcs (by simpa using hne)
  | cons c cs =>
    rw [hcs] at hall hval
    have hc : isdigit c = true := by
      simp only [List.all_cons, Bool.and_eq_true] at hall
      exact hall.1
    unfold atoi
    rw [hcs, atoi_parts_digit c cs hc, digits_value_all _ hall]
    simp only [Bool.false_eq_true, if_false]
    have : List.foldl (fun a c => a * 10 + (c.toNat - 48)) 0 (c :: cs) = n := hval
    rw [this]
    exact to_int_clamp_of_range _ (by unfold INT_MIN; omega) hn

theorem atoi_of_minus_numeral (t : String) (n : Nat) (h : is_numeral t n = true)
    (hn : INT_MIN ≤ -(n : Int)) : atoi ("-" ++ t) = -(n : Int) := by
  simp only [is_numeral, Bool.and_eq_true, decide_eq_true_eq, Bool.not_eq_true',
    List.isEmpty_eq_false] at h
  obtain ⟨⟨_, hall⟩, hval⟩ := h
  have hl : ("-" ++ t).toList = '-' :: t.toList := by
    simp [String.toList]
  unfold atoi
  rw [hl, atoi_parts_minus, digits_value_all _ hall]
  simp only [if_true]
  have : List.foldl (fun a c => a * 10 + (c.toNat - 48)) 0 t.toList = n := hval
  rw [this]
  exact to_int_clamp_of_range _ hn (by unfold INT_MAX; omega)

theorem digitChar_spec (m : Nat) (hm : m < 10) :
    isdigit (Nat.digitChar m) = true ∧ (Nat.digitChar m).toNat - 48 = m := by
  interval_cases m <;> exact ⟨by decide, by decide⟩

theorem decimal_value_snoc (ds : List Char) (c : Char) :
    decimal_value (ds ++ [c]) = decimal_value ds * 10 + (c.toNat - 48) := by
  simp [decimal_value, List.foldl_append]

theorem toDigitsCore_numeral (fuel n : Nat) (acc : List Char) (hfuel : n < fuel) :
    ∃ body : List Char, body ≠ [] ∧ body.all isdigit = true ∧ decimal_value body = n ∧
      Nat.toDigitsCore 10 fuel n acc = body ++ acc := by
  induction fuel generalizing n acc with
  | zero => omega
  | succ fuel ih =>
    have hd := digitChar_spec (n % 10) (Nat.mod_lt _ (by decide))
    by_cases hq : n / 10 = 0
    · refine ⟨[Nat.digitChar (n % 10)], by simp, by simp [hd.1], ?_, by simp [Nat.toDigitsCore, hq]⟩
      simp only [decimal_value, List.foldl_cons, List.foldl_nil, hd.2]
      omega
    · obtain ⟨body, h1, h2, h3, h4⟩ := ih (n / 10) (Nat.digitChar (n % 10) :: acc) (by omega)
      refine ⟨body ++ [Nat.digitChar (n % 10)], by simp, by simp [h2, hd.1], ?_,
        by simp [Nat.toDigitsCore, hq, h4]⟩
      rw [decimal_value_snoc, h3, hd.2]
      omega

theorem is_numeral_repr (n : Nat) : is_numeral (Nat.repr n) n = true := by
  obtain ⟨body, h1, h2, h3, h4⟩ := toDigitsCore_numeral (n + 1) n [] (by omega)
  have hl : (Nat.repr n).toList = body := by
    simp [Nat.repr, Nat.toDigits, h4, String.toList, List.asString]
  simp only [is_numeral, hl, h2, h3, Bool.and_eq_true, decide_eq_true_eq, Bool.not_eq_true',
    List.isEmpty_eq_false, and_true]
  simpa using h1

theorem atoi_toString_int (n : Int) (h1 : INT_MIN ≤ n) (h2 : n ≤ INT_MAX) :
    atoi (toString n) = n := by
  cases n with
  | ofNat m =>
    exact atoi_of_numeral _ m (is_numeral_repr m) h2
  | negSucc m =>
    have e : toString (Int.negSucc m) = "-" ++ Nat.repr (m + 1) := rfl
    rw [e]
    have := atoi_of_minus_numeral _ (m + 1) (is_numeral_repr (m + 1))
      (by rw [Int.negSucc_eq] at h1; push_cast; omega)
    rw [this, Int.negSucc_eq]
    push_cast
    ring


/-! ## Scanning (flag, value) pairs -/

theorem flag_store_isSome (a : String) : (flag_store a).isSome = is_value_flag a := by
  unfold flag_store is_value_flag
  by_cases c1 : a = "-d" ∨ a = "--domain"
  · rcases c1 with rfl | rfl <;> decide
  by_cases c2 : a = "-s" ∨ a = "--sample-count"
  · rcases c2 with rfl | rfl <;> decide
  by_cases c3 : a = "-m" ∨ a = "--max-string-length"
  · rcases c3 with rfl | rfl <;> decide
  by_cases c4 : a = "-c" ∨ a = "--compression-id"
  · rcases c4 with rfl | rfl <;> decide
  by_cases c5 : a = "-i" ∨ a = "--input-file"
  · rcases c5 with rfl | rfl <;> decide
  by_cases c6 : a = "-v" ∨ a = "--verbosity"
  · rcases c6 with rfl | rfl <;> decide
  simp only [c1, c2, c3, c4, c5, c6, if_false, Option.isSome_none]
  simp only [not_or] at c1 c2 c3 c4 c5 c6
  simp [c1, c2, c3, c4, c5, c6]

theorem flag_store_none_of_not_value_flag (a : String) (h : is_value_flag a = false) :
    flag_store a = none := by
  have := flag_store_isSome a
  rw [h] at this
  cases hf : flag_store a with
  | none => rfl
  | some f => rw [hf] at this; simp at this

theorem scan_tokens_stop (a : String) (R : List String) (st : ParseState)
    (h : is_value_flag a = false) : scan_tokens (a :: R) st = stop_state a st := by
  cases R with
  | nil => rfl
  | cons v rest => simp only [scan_tokens, flag_store_none_of_not_value_flag a h]

theorem scan_tokens_pair (a v : String) (rest : List String) (st : ParseState)
    (h : is_value_flag a = true) :
    scan_tokens (a :: v :: rest) st = scan_tokens rest (apply_pair (a, v) st) := by
  have := flag_store_isSome a
  rw [h] at this
  cases hf : flag_store a with
  | none => rw [hf] at this; simp at this
  | some f => simp only [scan_tokens, apply_pair, hf]

theorem scan_tokens_pairs (P : List (String × String)) (rest : List String) (st : ParseState)
    (hP : well_formed_pairs P = true) :
    scan_tokens (pairs_tokens P ++ rest) st = scan_tokens rest (apply_pairs P st) := by
  induction P generalizing st with
  | nil => rfl
  | cons p ps ih =>
    simp only [well_formed_pairs, List.all_cons, Bool.and_eq_true] at hP
    simp only [pairs_tokens, List.cons_append]
    rw [scan_tokens_pair _ _ _ _ hP.1, ih _ (by simpa [well_formed_pairs] using hP.2)]
    rfl

theorem scan_tokens_pairs_only (P : List (String × String)) (st : ParseState)
    (hP : well_formed_pairs P = true) :
    scan_tokens (pairs_tokens P) st = apply_pairs P st := by
  have := scan_tokens_pairs P [] st hP
  simpa [scan_tokens] using this


/-! ## Frame facts and the default result -/

theorem apply_pair_frame (p : String × String) (st : ParseState) :
    (apply_pair p st).show_usage = st.show_usage ∧
    (apply_pair p st).parse_result = st.parse_result ∧
    (apply_pair p st).cout = st.cout := by
  unfold apply_pair flag_store
  split_ifs <;> simp [advance]

theorem apply_pairs_frame (P : List (String × String)) (st : ParseState) :
    (apply_pairs P st).show_usage = st.show_usage ∧
    (apply_pairs P st).parse_result = st.parse_result ∧
    (apply_pairs P st).cout = st.cout := by
  induction P generalizing st with
  | nil => exact ⟨rfl, rfl, rfl⟩
  | cons p ps ih =>
    have h1 := apply_pair_frame p st
    have h2 := ih (apply_pair p st)
    simp only [apply_pairs, List.foldl_cons] at h2 ⊢
    exact ⟨h2.1.trans h1.1, h2.2.1.trans h1.2.1, h2.2.2.trans h1.2.2⟩

theorem print_usage_quiet (st : ParseState) (h : st.show_usage = false) :
    print_usage st = st := by
  simp [print_usage, h]

theorem stop_state_help (a : String) (st : ParseState) (h : is_help a = true) :
    stop_state a st = (help_branch st).2 := by
  simp [stop_state, h]

theorem stop_state_bad (a : String) (st : ParseState) (h : is_help a = false) :
    stop_state a st = (bad_branch st).2 := by
  simp [stop_state, h]

theorem is_value_flag_of_help (a : String) (h : is_help a = true) : is_value_flag a = false := by
  simp only [is_help, decide_eq_true_eq] at h
  rcases h with rfl | rfl <;> decide

/-- Claim C1: with the program name as the only argument, `parse_arguments`
returns status ok with domain id 0, sample count 4294967295 (the largest
`unsigned int`), maximum string length 4096, empty compression identifier, empty
input file and verbosity `EXCEPTION`; nothing is printed. -/
theorem parse_arguments_defaults (prog : String) :
    parse_arguments [prog] = Except.ok
      { args :=
          { parse_result := ParseReturn.ok
            domain_id := 0
            sample_count := 4294967295
            max_string_length := 4096
            compression_id := ""
            input_file := ""
            verbosity := Verbosity.EXCEPTION }
        cout := [] } := by
  rw [parse_arguments_cons]
  rfl


/-! ## The effect of each flag -/

theorem apply_pair_domain (f v : String) (st : ParseState) (h : f = "-d" ∨ f = "--domain") :
    apply_pair (f, v) st =
      { st with domain_id := to_unsigned (atoi v), arg_processing := st.arg_processing + 2 } := by
  rcases h with rfl | rfl <;> rfl

theorem apply_pair_sample_count (f v : String) (st : ParseState)
    (h : f = "-s" ∨ f = "--sample-count") :
    apply_pair (f, v) st =
      { st with sample_count := to_unsigned (atoi v), arg_processing := st.arg_processing + 2 } := by
  rcases h with rfl | rfl <;> rfl

theorem apply_pair_max_string_length (f v : String) (st : ParseState)
    (h : f = "-m" ∨ f = "--max-string-length") :
    apply_pair (f, v) st =
      { st with max_string_length := to_unsigned (atoi v),
                arg_processing := st.arg_processing + 2 } := by
  rcases h with rfl | rfl <;> rfl

theorem apply_pair_compression_id (f v : String) (st : ParseState)
    (h : f = "-c" ∨ f = "--compression-id") :
    apply_pair (f, v) st =
      { st with compression_id := v, arg_processing := st.arg_processing + 2 } := by
  rcases h with rfl | rfl <;> rfl

theorem apply_pair_input_file (f v : String) (st : ParseState)
    (h : f = "-i" ∨ f = "--input-file") :
    apply_pair (f, v) st =
      { st with input_file := v, arg_processing := st.arg_processing + 2 } := by
  rcases h with rfl | rfl <;> rfl

theorem apply_pair_verbosity (f v : String) (st : ParseState)
    (h : f = "-v" ∨ f = "--verbosity") :
    apply_pair (f, v) st =
      { st with verbosity := set_verbosity (atoi v),
                arg_processing := st.arg_processing + 2 } := by
  rcases h with rfl | rfl <;> rfl

theorem to_unsigned_natCast (n : Nat) (h : n < 4294967296) : to_unsigned (n : Int) = n := by
  unfold to_unsigned
  omega


/-! ## All six flags in any order -/

theorem is_value_flag_of_form (f s l : String) (h : f = s ∨ f = l)
    (hs : is_value_flag s = true) (hl : is_value_flag l = true) : is_value_flag f = true := by
  rcases h with rfl | rfl <;> assumption

/-- Claim C2: the program name followed by any permutation of the six flag
pairs, each flag in its short or long form and given once, with decimal
numerals below `2^31` for `-d`, `-s`, `-m`, a numeral in `0..3` for `-v` and any
strings for `-c`, `-i`, parses with status ok and every field holds the value
given for its flag, the verbosity being the level of the numeral: `SILENT` for
0, `EXCEPTION` for 1, `WARNING` for 2, `STATUS_ALL` for 3; nothing is printed. -/
theorem parse_arguments_all_flags (prog : String)
    (fd fs fm fc fi fv : String) (td ts tm c i tv : String) (d s m v : Nat)
    (P : List (String × String))
    (hfd : fd = "-d" ∨ fd = "--domain")
    (hfs : fs = "-s" ∨ fs = "--sample-count")
    (hfm : fm = "-m" ∨ fm = "--max-string-length")
    (hfc : fc = "-c" ∨ fc = "--compression-id")
    (hfi : fi = "-i" ∨ fi = "--input-file")
    (hfv : fv = "-v" ∨ fv = "--verbosity")
    (hd : is_numeral td d = true) (hdr : d < 2 ^ 31)
    (hs : is_numeral ts s = true) (hsr : s < 2 ^ 31)
    (hm : is_numeral tm m = true) (hmr : m < 2 ^ 31)
    (hv : is_numeral tv v = true) (hvr : v ≤ 3)
    (hP : List.Perm P [(fd, td), (fs, ts), (fm, tm), (fc, c), (fi, i), (fv, tv)]) :
    parse_arguments (prog :: pairs_tokens P) = Except.ok
      { args :=
          { parse_result := ParseReturn.ok
            domain_id := d
            sample_count := s
            max_string_length := m
            compression_id := c
            input_file := i
            verbosity := numeral_level v }
        cout := [] } := by
  have e1 := fun st => apply_pair_domain fd td st hfd
  have e2 := fun st => apply_pair_sample_count fs ts st hfs
  have e3 := fun st => apply_pair_max_string_length fm tm st hfm
  have e4 := fun st => apply_pair_compression_id fc c st hfc
  have e5 := fun st => apply_pair_input_file fi i st hfi
  have e6 := fun st => apply_pair_verbosity fv tv st hfv
  have hwf : well_formed_pairs P = true := by
    simp only [well_formed_pairs, List.all_eq_true]
    intro p hp
    have hp' := hP.subset hp
    simp only [List.mem_cons, List.mem_singleton, List.not_mem_nil, or_false] at hp'
    rcases hp' with rfl | rfl | rfl | rfl | rfl | rfl
    · exact is_value_flag_of_form _ _ _ hfd (by decide) (by decide)
    · exact is_value_flag_of_form _ _ _ hfs (by decide) (by decide)
    · exact is_value_flag_of_form _ _ _ hfm (by decide) (by decide)
    · exact is_value_flag_of_form _ _ _ hfc (by decide) (by decide)
    · exact is_value_flag_of_form _ _ _ hfi (by decide) (by decide)
    · exact is_value_flag_of_form _ _ _ hfv (by decide) (by decide)
  have hperm : apply_pairs P ParseState.initial =
      apply_pairs [(fd, td), (fs, ts), (fm, tm), (fc, c), (fi, i), (fv, tv)]
        ParseState.initial := by
    unfold apply_pairs
    refine (hP.symm.foldl_eq' ?_ _).symm
    intro x hx y hy z
    simp only [List.mem_cons, List.mem_singleton, List.not_mem_nil, or_false] at hx hy
    rcases hx with rfl | rfl | rfl | rfl | rfl | rfl <;>
      rcases hy with rfl | rfl | rfl | rfl | rfl | rfl <;>
      simp only [e1, e2, e3, e4, e5, e6]
  have ad : atoi td = (d : Int) := atoi_of_numeral td d hd (by unfold INT_MAX; omega)
  have as : atoi ts = (s : Int) := atoi_of_numeral ts s hs (by unfold INT_MAX; omega)
  have am : atoi tm = (m : Int) := atoi_of_numeral tm m hm (by unfold INT_MAX; omega)
  have av : atoi tv = (v : Int) := atoi_of_numeral tv v hv (by unfold INT_MAX; omega)
  have hlevel : set_verbosity (v : Int) = numeral_level v := by
    interval_cases v <;> rfl
  rw [parse_arguments_cons, scan_tokens_pairs_only _ _ hwf, hperm]
  simp only [apply_pairs, List.foldl_cons, List.foldl_nil, e1, e2, e3, e4, e5, e6, ad, as, am, av,
    to_unsigned_natCast d (by omega), to_unsigned_natCast s (by omega),
    to_unsigned_natCast m (by omega), hlevel]
  rfl

theorem parse_arguments_all_flags_witness :
    parse_arguments ("app" :: pairs_tokens
      [("--verbosity", "2"), ("-i", "in.txt"), ("-d", "7"), ("--sample-count", "010"),
        ("-c", "ZLIB"), ("-m", "2147483647")]) = Except.ok
      { args :=
          { parse_result := ParseReturn.ok
            domain_id := 7
            sample_count := 10
            max_string_length := 2147483647
            compression_id := "ZLIB"
            input_file := "in.txt"
            verbosity := Verbosity.WARNING }
        cout := [] } :=
  parse_arguments_all_flags "app" "-d" "--sample-count" "-m" "-c" "-i" "--verbosity"
    "7" "010" "2147483647" "ZLIB" "in.txt" "2" 7 10 2147483647 2
    [("--verbosity", "2"), ("-i", "in.txt"), ("-d", "7"), ("--sample-count", "010"),
        ("-c", "ZLIB"), ("-m", "2147483647")]
    (by decide) (by decide) (by decide) (by decide) (by decide) (by decide)
    (by decide) (by decide) (by decide) (by decide) (by decide) (by decide) (by decide)
    (by decide) (by decide)


/-! ## Tokens that stop the scan -/

theorem is_help_of_value_flag (a : String) (h : is_value_flag a = true) : is_help a = false := by
  cases hh : is_help a with
  | false => rfl
  | true => rw [is_value_flag_of_help a hh] at h; exact absurd h (by decide)

theorem parse_arguments_stop (prog : String) (P : List (String × String)) (a : String)
    (R : List String) (hP : well_formed_pairs P = true) (ha : is_value_flag a = false) :
    parse_arguments (prog :: (pairs_tokens P ++ a :: R)) =
      Except.ok (print_usage (stop_state a (apply_pairs P ParseState.initial))).outcome := by
  rw [parse_arguments_cons, scan_tokens_pairs _ _ _ hP, scan_tokens_stop _ _ _ ha]

theorem parse_arguments_pairs (prog : String) (P : List (String × String))
    (hP : well_formed_pairs P = true) :
    parse_arguments (prog :: pairs_tokens P) =
      Except.ok (apply_pairs P ParseState.initial).outcome := by
  rw [parse_arguments_cons, scan_tokens_pairs_only _ _ hP, print_usage_quiet]
  exact (apply_pairs_frame P ParseState.initial).1

/-- Claim C3, as the code has it: when `-h` or `--help` comes after the program
name and zero or more complete (value flag, value) pairs, `parse_arguments`
returns status exit, whatever tokens follow. -/
theorem parse_arguments_help_after_pairs (prog : String) (P : List (String × String))
    (h : String) (R : List String)
    (hP : well_formed_pairs P = true) (hh : is_help h = true) :
    ∃ out, parse_arguments (prog :: (pairs_tokens P ++ h :: R)) = Except.ok out ∧
      out.args.parse_result = ParseReturn.exit := by
  refine ⟨_, parse_arguments_stop prog P h R hP (is_value_flag_of_help h hh), ?_⟩
  rw [stop_state_help _ _ hh]
  rfl

theorem parse_arguments_help_after_pairs_witness :
    ∃ out, parse_arguments
        ("app" :: (pairs_tokens [("-d", "3"), ("--input-file", "--help")] ++
          "--help" :: ["bogus", "-s"])) = Except.ok out ∧
      out.args.parse_result = ParseReturn.exit :=
  parse_arguments_help_after_pairs "app" [("-d", "3"), ("--input-file", "--help")] "--help"
    ["bogus", "-s"] (by decide) (by decide)

/-- Claim C3 as stated fails: `--help` after an unknown token gives status
failure, and `--help` in the value position of `-d` gives status ok. -/
theorem help_not_reached :
    ("--help" ∈ ["bogus", "--help"] ∧
      ∃ out, parse_arguments ["app", "bogus", "--help"] = Except.ok out ∧
        out.args.parse_result = ParseReturn.failure) ∧
    ("--help" ∈ ["-d", "--help"] ∧
      ∃ out, parse_arguments ["app", "-d", "--help"] = Except.ok out ∧
        out.args.parse_result = ParseReturn.ok) :=
  ⟨⟨by decide, _, rfl, rfl⟩, ⟨by decide, _, rfl, rfl⟩⟩

/-- Claim C4, as the code has it: when a value flag is the last token and comes
after the program name and zero or more complete (value flag, value) pairs,
`parse_arguments` returns status failure. -/
theorem parse_arguments_flag_without_value (prog : String) (P : List (String × String))
    (f : String) (hP : well_formed_pairs P = true) (hf : is_value_flag f = true) :
    ∃ out, parse_arguments (prog :: (pairs_tokens P ++ [f])) = Except.ok out ∧
      out.args.parse_result = ParseReturn.failure := by
  refine ⟨_, by rw [parse_arguments_cons, scan_tokens_pairs _ _ _ hP], ?_⟩
  simp only [scan_tokens]
  rw [stop_state_bad _ _ (is_help_of_value_flag f hf)]
  rfl

theorem parse_arguments_flag_without_value_witness :
    ∃ out, parse_arguments ("app" :: (pairs_tokens [("-c", "LZ4"), ("-v", "-v")] ++
        ["--sample-count"])) = Except.ok out ∧
      out.args.parse_result = ParseReturn.failure :=
  parse_arguments_flag_without_value "app" [("-c", "LZ4"), ("-v", "-v")] "--sample-count"
    (by decide) (by decide)

/-- Claim C4 as stated fails: in `app -i -d` the last token is the value flag
`-d`, it is taken as the value of `-i`, and the status is ok. -/
theorem last_flag_taken_as_value :
    is_value_flag "-d" = true ∧ ["app", "-i", "-d"].getLast? = some "-d" ∧
    ∃ out, parse_arguments ["app", "-i", "-d"] = Except.ok out ∧
      out.args.parse_result = ParseReturn.ok ∧ out.args.input_file = "-d" :=
  ⟨by decide, rfl, _, rfl, rfl, rfl⟩

/-- Claim C5: for the program name, then well-formed (value flag, value) pairs
`P`, then a token that is not a recognized flag, then any tokens `R`,
`parse_arguments` returns status failure and every other field is the one of
parsing the program name and `P` alone. -/
theorem parse_arguments_unrecognized (prog : String) (P : List (String × String))
    (bad : String) (R : List String)
    (hP : well_formed_pairs P = true) (hbad : is_recognized bad = false) :
    ∃ out out0,
      parse_arguments (prog :: (pairs_tokens P ++ bad :: R)) = Except.ok out ∧
      parse_arguments (prog :: pairs_tokens P) = Except.ok out0 ∧
      out0.args.parse_result = ParseReturn.ok ∧
      out.args.parse_result = ParseReturn.failure ∧
      out.args.domain_id = out0.args.domain_id ∧
      out.args.sample_count = out0.args.sample_count ∧
      out.args.max_string_length = out0.args.max_string_length ∧
      out.args.compression_id = out0.args.compression_id ∧
      out.args.input_file = out0.args.input_file ∧
      out.args.verbosity = out0.args.verbosity := by
  simp only [is_recognized, Bool.or_eq_false_iff] at hbad
  refine ⟨_, _, parse_arguments_stop prog P bad R hP hbad.1, parse_arguments_pairs prog P hP, ?_⟩
  rw [stop_state_bad _ _ hbad.2]
  exact ⟨(apply_pairs_frame P ParseState.initial).2.1, rfl, rfl, rfl, rfl, rfl, rfl, rfl⟩

theorem parse_arguments_unrecognized_witness :
    ∃ out out0,
      parse_arguments ("app" :: (pairs_tokens [("-d", "5")] ++ "--bogus" :: ["-d", "9"])) =
        Except.ok out ∧
      parse_arguments ("app" :: pairs_tokens [("-d", "5")]) = Except.ok out0 ∧
      out0.args.parse_result = ParseReturn.ok ∧
      out.args.parse_result = ParseReturn.failure ∧
      out.args.domain_id = out0.args.domain_id ∧
      out.args.sample_count = out0.args.sample_count ∧
      out.args.max_string_length = out0.args.max_string_length ∧
      out.args.compression_id = out0.args.compression_id ∧
      out.args.input_file = out0.args.input_file ∧
      out.args.verbosity = out0.args.verbosity :=
  parse_arguments_unrecognized "app" [("-d", "5")] "--bogus" ["-d", "9"] (by decide) (by decide)


/-! ## Verbosity and malformed numbers -/

theorem well_formed_pairs_snoc (P : List (String × String)) (f v : String)
    (hP : well_formed_pairs P = true) (hf : is_value_flag f = true) :
    well_formed_pairs (P ++ [(f, v)]) = true := by
  simp only [well_formed_pairs, List.all_append, List.all_cons, List.all_nil, Bool.and_true,
    Bool.and_eq_true] at hP ⊢
  exact ⟨hP, hf⟩

theorem pairs_tokens_snoc (P : List (String × String)) (f v : String) :
    pairs_tokens (P ++ [(f, v)]) = pairs_tokens P ++ [f, v] := by
  induction P with
  | nil => rfl
  | cons p ps ih =>
    show p.1 :: p.2 :: pairs_tokens (ps ++ [(f, v)]) = p.1 :: p.2 :: (pairs_tokens ps ++ [f, v])
    rw [ih]

theorem apply_pairs_snoc (P : List (String × String)) (p : String × String) (st : ParseState) :
    apply_pairs (P ++ [p]) st = apply_pair p (apply_pairs P st) := by
  simp [apply_pairs, List.foldl_append]

theorem parse_arguments_verbosity_pair (prog f v : String) (h : f = "-v" ∨ f = "--verbosity") :
    ∃ out, parse_arguments [prog, f, v] = Except.ok out ∧
      out.args.parse_result = ParseReturn.ok ∧
      out.args.verbosity = set_verbosity (atoi v) := by
  have hwf : well_formed_pairs [(f, v)] = true :=
    well_formed_pairs_snoc [] f v rfl (is_value_flag_of_form _ _ _ h (by decide) (by decide))
  refine ⟨_, parse_arguments_pairs prog [(f, v)] hwf, ?_⟩
  simp only [apply_pairs, List.foldl_cons, List.foldl_nil, apply_pair_verbosity f v _ h]
  exact ⟨rfl, rfl⟩

/-- Claim C6: `set_verbosity` maps 0 to `SILENT`, 1 to `EXCEPTION`, 2 to
`WARNING`, 3 to `STATUS_ALL` and every other integer, the negative ones
included, to `EXCEPTION`; and for every `int` value `n`, parsing `-v` (or
`--verbosity`) followed by the decimal numeral of `n` returns status ok with the
level that `set_verbosity` gives for `n`. -/
theorem set_verbosity_mapping :
    set_verbosity 0 = Verbosity.SILENT ∧
    set_verbosity 1 = Verbosity.EXCEPTION ∧
    set_verbosity 2 = Verbosity.WARNING ∧
    set_verbosity 3 = Verbosity.STATUS_ALL ∧
    (∀ n : Int, (n < 0 ∨ 3 < n) → set_verbosity n = Verbosity.EXCEPTION) ∧
    (∀ (n : Int) (prog f : String), INT_MIN ≤ n → n ≤ INT_MAX →
      (f = "-v" ∨ f = "--verbosity") →
      ∃ out, parse_arguments [prog, f, toString n] = Except.ok out ∧
        out.args.parse_result = ParseReturn.ok ∧
        out.args.verbosity = set_verbosity n) := by
  refine ⟨rfl, rfl, rfl, rfl, ?_, ?_⟩
  · intro n hn
    unfold set_verbosity
    rw [if_neg (by omega), if_neg (by omega), if_neg (by omega), if_neg (by omega)]
  · intro n prog f h1 h2 hf
    have h := parse_arguments_verbosity_pair prog f (toString n) hf
    rw [atoi_toString_int n h1 h2] at h
    exact h

theorem set_verbosity_mapping_witness :
    set_verbosity (-7) = Verbosity.EXCEPTION ∧
    ∃ out, parse_arguments ["app", "--verbosity", toString (-7 : Int)] = Except.ok out ∧
      out.args.parse_result = ParseReturn.ok ∧
      out.args.verbosity = set_verbosity (-7) :=
  ⟨set_verbosity_mapping.2.2.2.2.1 (-7) (Or.inl (by decide)),
    set_verbosity_mapping.2.2.2.2.2 (-7) "app" "--verbosity" (by decide) (by decide)
      (Or.inr rfl)⟩

theorem digits_value_not_digit (cs : List Char) (h : ∀ d ∈ cs.head?, isdigit d = false) :
    digits_value cs 0 = 0 := by
  cases cs with
  | nil => rfl
  | cons d ds =>
    have := h d (by simp)
    simp [digits_value, this]

theorem atoi_of_no_integer (tok : String) (h : begins_with_integer tok = false) :
    atoi tok = 0 := by
  unfold begins_with_integer at h
  have key : (atoi_parts tok.toList).2 = 0 := by
    unfold atoi_parts
    cases hd : tok.toList.dropWhile isspace with
    | nil => rfl
    | cons c cs =>
      rw [hd] at h
      simp only at h
      by_cases hm : c = '-'
      · subst hm
        simp only [true_or, if_true] at h
        simp only
        apply digits_value_not_digit
        cases cs with
        | nil => simp
        | cons d ds => simpa using h
      by_cases hp : c = '+'
      · subst hp
        simp only [or_true, if_true] at h
        simp only
        apply digits_value_not_digit
        cases cs with
        | nil => simp
        | cons d ds => simpa using h
      · simp only [hm, hp, or_self, if_false] at h
        have : digits_value (c :: cs) 0 = 0 := digits_value_not_digit _ (by simpa using h)
        split
        · rename_i heq; simp only [List.cons.injEq] at heq; exact absurd heq.1 hm
        · rename_i heq; simp only [List.cons.injEq] at heq; exact absurd heq.1 hp
        · exact this
  unfold atoi
  simp only [key]
  split <;> rfl


/-! ## Malformed numbers and printed text -/

/-- Claim C7: for a numeric flag `-d`, `-s` or `-m` (or its long form) at the end
of a list of well-formed pairs, with a value token that does not begin with a
decimal integer, `parse_arguments` returns status ok, prints nothing, and the
field of that flag is 0. -/
theorem parse_arguments_non_numeric (prog : String) (P : List (String × String))
    (f tok : String) (hP : well_formed_pairs P = true)
    (hf : f ∈ ["-d", "--domain", "-s", "--sample-count", "-m", "--max-string-length"])
    (htok : begins_with_integer tok = false) :
    ∃ out, parse_arguments (prog :: (pairs_tokens P ++ [f, tok])) = Except.ok out ∧
      out.args.parse_result = ParseReturn.ok ∧ out.cout = [] ∧
      (f ∈ ["-d", "--domain"] → out.args.domain_id = 0) ∧
      (f ∈ ["-s", "--sample-count"] → out.args.sample_count = 0) ∧
      (f ∈ ["-m", "--max-string-length"] → out.args.max_string_length = 0) := by
  have hvf : is_value_flag f = true := by
    simp only [List.mem_cons, List.mem_singleton, List.not_mem_nil, or_false] at hf
    rcases hf with rfl | rfl | rfl | rfl | rfl | rfl <;> decide
  have hwf := well_formed_pairs_snoc P f tok hP hvf
  have hz : to_unsigned (atoi tok) = 0 := by rw [atoi_of_no_integer tok htok]; rfl
  have hfr := apply_pairs_frame (P ++ [(f, tok)]) ParseState.initial
  refine ⟨_, by rw [← pairs_tokens_snoc]; exact parse_arguments_pairs prog _ hwf,
    hfr.2.1, hfr.2.2, ?_, ?_, ?_⟩
  · intro h
    simp only [List.mem_cons, List.mem_singleton, List.not_mem_nil, or_false] at h
    rw [apply_pairs_snoc, apply_pair_domain f tok _ h]
    exact hz
  · intro h
    simp only [List.mem_cons, List.mem_singleton, List.not_mem_nil, or_false] at h
    rw [apply_pairs_snoc, apply_pair_sample_count f tok _ h]
    exact hz
  · intro h
    simp only [List.mem_cons, List.mem_singleton, List.not_mem_nil, or_false] at h
    rw [apply_pairs_snoc, apply_pair_max_string_length f tok _ h]
    exact hz

theorem parse_arguments_non_numeric_witness :
    ∃ out, parse_arguments ("app" :: (pairs_tokens [("-s", "5")] ++ ["--sample-count", " -abc"]))
        = Except.ok out ∧
      out.args.parse_result = ParseReturn.ok ∧ out.args.sample_count = 0 := by
  obtain ⟨out, h, hok, _, _, hs, _⟩ :=
    parse_arguments_non_numeric "app" [("-s", "5")] "--sample-count" " -abc"
      (by decide) (by decide) (by decide)
  exact ⟨out, h, hok, hs (by decide)⟩

theorem scan_tokens_report (n : Nat) :
    ∀ (toks : List String) (st : ParseState), toks.length ≤ n →
      st.show_usage = false → st.parse_result = ParseReturn.ok → st.cout = [] →
      ((scan_tokens toks st).parse_result = ParseReturn.ok ∧
        (scan_tokens toks st).show_usage = false ∧ (scan_tokens toks st).cout = []) ∨
      ((scan_tokens toks st).parse_result = ParseReturn.exit ∧
        (scan_tokens toks st).show_usage = true ∧
        (scan_tokens toks st).cout = ["Example application."]) ∨
      ((scan_tokens toks st).parse_result = ParseReturn.failure ∧
        (scan_tokens toks st).show_usage = true ∧
        (scan_tokens toks st).cout = ["Bad parameter."]) := by
  have hstop : ∀ (a : String) (st : ParseState), st.cout = [] →
      ((stop_state a st).parse_result = ParseReturn.exit ∧
        (stop_state a st).show_usage = true ∧
        (stop_state a st).cout = ["Example application."]) ∨
      ((stop_state a st).parse_result = ParseReturn.failure ∧
        (stop_state a st).show_usage = true ∧
        (stop_state a st).cout = ["Bad parameter."]) := by
    intro a st h3
    cases hh : is_help a with
    | true =>
      left
      rw [stop_state_help _ _ hh]
      simp [help_branch, h3]
    | false =>
      right
      rw [stop_state_bad _ _ hh]
      simp [bad_branch, h3]
  induction n with
  | zero =>
    intro toks st hlen h1 h2 h3
    have : toks = [] := List.length_eq_zero.mp (by omega)
    subst this
    exact Or.inl ⟨h2, h1, h3⟩
  | succ n ih =>
    intro toks st hlen h1 h2 h3
    match toks with
    | [] => exact Or.inl ⟨h2, h1, h3⟩
    | [a] => exact Or.inr (hstop a st h3)
    | a :: v :: rest =>
      cases hv : is_value_flag a with
      | false =>
        rw [scan_tokens_stop _ _ _ hv]
        exact Or.inr (hstop a st h3)
      | true =>
        rw [scan_tokens_pair _ _ _ _ hv]
        have hfr := apply_pair_frame (a, v) st
        apply ih
        · simp only [List.length_cons] at hlen
          omega
        · rw [hfr.1, h1]
        · rw [hfr.2.1, h2]
        · rw [hfr.2.2, h3]

/-- Claim C8: on every argument list `parse_arguments` returns, and the usage
text is printed exactly when the status is not ok; with status exit the output
is the line `Example application.` followed by the usage text, with status
failure it is the line `Bad parameter.` followed by the usage text, and with
status ok nothing is printed. -/
theorem parse_arguments_output (argv : List String) :
    ∃ out, parse_arguments argv = Except.ok out ∧
      (usage_text ∈ out.cout ↔ out.args.parse_result ≠ ParseReturn.ok) ∧
      (out.args.parse_result = ParseReturn.exit →
        out.cout = ["Example application.", usage_text]) ∧
      (out.args.parse_result = ParseReturn.failure →
        out.cout = ["Bad parameter.", usage_text]) ∧
      (out.args.parse_result = ParseReturn.ok → out.cout = []) := by
  cases argv with
  | nil =>
    refine ⟨_, parse_arguments_nil, ?_⟩
    decide
  | cons prog toks =>
    refine ⟨_, parse_arguments_cons prog toks, ?_⟩
    rcases scan_tokens_report toks.length toks ParseState.initial (le_refl _) rfl rfl rfl with
      h | h | h
    · obtain ⟨h1, h2, h3⟩ := h
      simp [print_usage, ParseState.outcome, h1, h2, h3]
    · obtain ⟨h1, h2, h3⟩ := h
      simp [print_usage, ParseState.outcome, h1, h2, h3]
    · obtain ⟨h1, h2, h3⟩ := h
      simp [print_usage, ParseState.outcome, h1, h2, h3]

theorem parse_arguments_output_witness :
    ∃ out, parse_arguments ["app", "-d", "1", "--help", "x"] = Except.ok out ∧
      out.args.parse_result = ParseReturn.exit ∧
      usage_text ∈ out.cout ∧ out.cout = ["Example application.", usage_text] := by
  obtain ⟨out, h, hiff, hexit, _, _⟩ := parse_arguments_output ["app", "-d", "1", "--help", "x"]
  have hst : out.args.parse_result = ParseReturn.exit := by
    have e : parse_arguments ["app", "-d", "1", "--help", "x"] =
        Except.ok (print_usage (scan_tokens ["-d", "1", "--help", "x"]
          ParseState.initial)).outcome := rfl
    rw [e] at h
    injection h with h
    rw [← h]
    rfl
  exact ⟨out, h, hst, hiff.mpr (by rw [hst]; decide), hexit hst⟩


/-! ## The signal handler and the documented default -/

theorem stop_handler_foldl_flag (sigs : List Int) :
    ∀ p : Process, p.shutdown_requested = true →
      (sigs.foldl (fun q s => stop_handler s q) p).shutdown_requested = true := by
  induction sigs with
  | nil => intro p hp; exact hp
  | cons s sigs ih => intro p _; exact ih (stop_handler s p) rfl

/-- Claim C9: the shutdown flag is false at program start; for every process
state and every signal number `stop_handler` gives a state whose flag is true and
whose output is the old output followed by the one line
`preparing to shut down...`, and it changes nothing else; once the flag is true,
any further sequence of handler invocations leaves it true. -/
theorem stop_handler_effect :
    Process.initial.shutdown_requested = false ∧
    (∀ (sig : Int) (p : Process),
      (stop_handler sig p).shutdown_requested = true ∧
      (stop_handler sig p).cout = p.cout ++ ["preparing to shut down..."] ∧
      (stop_handler sig p).handled = p.handled) ∧
    (∀ (sigs : List Int) (p : Process), p.shutdown_requested = true →
      (sigs.foldl (fun q s => stop_handler s q) p).shutdown_requested = true) :=
  ⟨rfl, fun _ _ => ⟨rfl, rfl, rfl⟩, stop_handler_foldl_flag⟩

theorem stop_handler_effect_witness :
    (stop_handler SIGINT (setup_signal_handlers Process.initial)).shutdown_requested = true ∧
    ([SIGTERM, SIGINT].foldl (fun q s => stop_handler s q)
      (stop_handler SIGINT (setup_signal_handlers Process.initial))).shutdown_requested = true :=
  ⟨rfl, stop_handler_effect.2.2 [SIGTERM, SIGINT]
    (stop_handler SIGINT (setup_signal_handlers Process.initial)) rfl⟩

/-- Claim C10, evaluated on the code: with no `-m` flag the maximum string length
in the result is 4096, not the 4098 that the usage text gives as the default of
`--max-string-length`. -/
theorem default_max_string_length_differs_from_usage :
    (∃ out, parse_arguments ["app"] = Except.ok out ∧
      out.args.max_string_length = 4096 ∧ out.args.max_string_length ≠ 4098) ∧
    (∃ before after : String, usage_text = before ++
      ("    -s, --max-string-length <int> Max size of a single line from the \n" ++
       "                               input file.\n" ++
       "                               Default: 4098\n") ++ after) :=
  ⟨⟨_, rfl, rfl, by decide⟩,
    ⟨"Usage:\n" ++
      "    -d, --domain       <int>   Domain ID this application will\n" ++
      "                               subscribe in.  \n" ++
      "                               Default: 0\n" ++
      "    -s, --sample-count <int>   Number of samples to receive before\n" ++
      "                               cleanly shutting down. \n" ++
      "                               Default: infinite\n",
     "    -c, --compression-id <string> Enable or disable compression with\n" ++
      "                               a given compression algorithm. \n" ++
      "                               Accepted values: NONE, LZ4, ZLIB, BZIP2\n" ++
      "                               Default: LZ4\n" ++
      "    -i, --input-file <string>  Path to the file to read. The file\n" ++
      "                               will be read line by line (each line\n" ++
      "                               represent a sample). If no file is\n" ++
      "                               given a 1K sample filled with zeros\n" ++
      "                               will be sent\n" ++
      "    -v, --verbosity    <int>   How much debugging output to show.\n" ++
      "                               Range: 0-3 \n" ++
      "                               Default: 1", by simp [usage_text]⟩⟩


/-! ## The status as a function of the shape of the token list -/

theorem pairs_tokens_length (P : List (String × String)) :
    (pairs_tokens P).length = 2 * P.length := by
  induction P with
  | nil => rfl
  | cons p ps ih => simp only [pairs_tokens, List.length_cons, ih]; omega

theorem well_formed_pairs_cons (p : String × String) (ps : List (String × String)) :
    well_formed_pairs (p :: ps) = true ↔
      is_value_flag p.1 = true ∧ well_formed_pairs ps = true := by
  simp [well_formed_pairs]

theorem pairs_shape_nil : ∃ P, well_formed_pairs P = true ∧ ([] : List String) = pairs_tokens P :=
  ⟨[], rfl, rfl⟩

theorem pairs_shape_single (a : String) :
    ¬ ∃ P, well_formed_pairs P = true ∧ [a] = pairs_tokens P := by
  rintro ⟨P, _, h⟩
  have := congrArg List.length h
  rw [pairs_tokens_length] at this
  simp only [List.length_cons, List.length_nil] at this
  omega

theorem pairs_shape_cons (a v : String) (rest : List String) :
    (∃ P, well_formed_pairs P = true ∧ a :: v :: rest = pairs_tokens P) ↔
      is_value_flag a = true ∧ ∃ P, well_formed_pairs P = true ∧ rest = pairs_tokens P := by
  constructor
  · rintro ⟨P, hP, h⟩
    cases P with
    | nil => exact absurd h (by simp [pairs_tokens])
    | cons p ps =>
      simp only [pairs_tokens, List.cons.injEq] at h
      rw [well_formed_pairs_cons] at hP
      obtain ⟨h1, _, h3⟩ := h
      exact ⟨by rw [h1]; exact hP.1, ps, hP.2, h3⟩
  · rintro ⟨ha, P, hP, h⟩
    exact ⟨(a, v) :: P, (well_formed_pairs_cons _ _).mpr ⟨ha, hP⟩, by rw [h]; rfl⟩

theorem help_shape_nil :
    ¬ ∃ P h R, well_formed_pairs P = true ∧ is_help h = true ∧
      ([] : List String) = pairs_tokens P ++ h :: R := by
  rintro ⟨P, h, R, _, _, e⟩
  have := congrArg List.length e
  simp only [List.length_nil, List.length_append, List.length_cons] at this
  omega

theorem help_shape_head (a : String) (rest : List String) :
    (∃ P h R, well_formed_pairs P = true ∧ is_help h = true ∧
      a :: rest = pairs_tokens P ++ h :: R) ↔
    is_help a = true ∨ (is_value_flag a = true ∧ ∃ v rest', rest = v :: rest' ∧
      ∃ P h R, well_formed_pairs P = true ∧ is_help h = true ∧
        rest' = pairs_tokens P ++ h :: R) := by
  constructor
  · rintro ⟨P, h, R, hP, hh, e⟩
    cases P with
    | nil =>
      simp only [pairs_tokens, List.nil_append, List.cons.injEq] at e
      left
      rw [e.1]
      exact hh
    | cons p ps =>
      simp only [pairs_tokens, List.cons_append, List.cons.injEq] at e
      rw [well_formed_pairs_cons] at hP
      right
      exact ⟨by rw [e.1]; exact hP.1, p.2, _, e.2, ps, h, R, hP.2, hh, rfl⟩
  · rintro (ha | ⟨ha, v, rest', rfl, P, h, R, hP, hh, e⟩)
    · exact ⟨[], a, rest, rfl, ha, rfl⟩
    · exact ⟨(a, v) :: P, h, R, (well_formed_pairs_cons _ _).mpr ⟨ha, hP⟩, hh, by rw [e]; rfl⟩

theorem stop_state_status (a : String) (st : ParseState) :
    ((stop_state a st).parse_result = ParseReturn.exit ↔ is_help a = true) ∧
    (stop_state a st).parse_result ≠ ParseReturn.ok := by
  cases hh : is_help a with
  | true => rw [stop_state_help _ _ hh]; simp [help_branch]
  | false => rw [stop_state_bad _ _ hh]; simp [bad_branch]

theorem scan_tokens_status (n : Nat) :
    ∀ (T : List String) (st : ParseState), T.length ≤ n →
      st.parse_result = ParseReturn.ok →
      ((scan_tokens T st).parse_result = ParseReturn.ok ↔
        ∃ P, well_formed_pairs P = true ∧ T = pairs_tokens P) ∧
      ((scan_tokens T st).parse_result = ParseReturn.exit ↔
        ∃ P h R, well_formed_pairs P = true ∧ is_help h = true ∧
          T = pairs_tokens P ++ h :: R) := by
  induction n with
  | zero =>
    intro T st hlen hst
    have : T = [] := List.length_eq_zero.mp (by omega)
    subst this
    simp only [scan_tokens, hst, true_iff, reduceCtorEq, false_iff]
    exact ⟨pairs_shape_nil, help_shape_nil⟩
  | succ n ih =>
    intro T st hlen hst
    match T with
    | [] =>
      simp only [scan_tokens, hst, true_iff, reduceCtorEq, false_iff]
      exact ⟨pairs_shape_nil, help_shape_nil⟩
    | [a] =>
      have hs := stop_state_status a st
      simp only [scan_tokens]
      refine ⟨⟨fun h => absurd h hs.2, fun h => absurd h (pairs_shape_single a)⟩, ?_⟩
      rw [hs.1, help_shape_head]
      constructor
      · exact Or.inl
      · rintro (h | ⟨_, v, rest', e, _⟩)
        · exact h
        · exact absurd e (by simp)
    | a :: v :: rest =>
      cases hv : is_value_flag a with
      | false =>
        have hs := stop_state_status a st
        rw [scan_tokens_stop _ _ _ hv, pairs_shape_cons, help_shape_head, hs.1]
        refine ⟨⟨fun h => absurd h hs.2, fun h => ?_⟩, Or.inl, ?_⟩
        · rw [hv] at h; exact absurd h.1 (by decide)
        · rintro (h | ⟨h, _⟩)
          · exact h
          · rw [hv] at h; exact absurd h (by decide)
      | true =>
        have hlen' : rest.length ≤ n := by simp only [List.length_cons] at hlen; omega
        have hfr := apply_pair_frame (a, v) st
        have := ih rest (apply_pair (a, v) st) hlen' (by rw [hfr.2.1, hst])
        rw [scan_tokens_pair _ _ _ _ hv, pairs_shape_cons, help_shape_head, this.1, this.2, hv]
        refine ⟨by simp, ?_⟩
        constructor
        · intro h
          exact Or.inr ⟨rfl, v, rest, rfl, h⟩
        · rintro (h | ⟨_, v', rest', e, h⟩)
          · rw [is_value_flag_of_help a h] at hv; exact absurd hv (by decide)
          · simp only [List.cons.injEq] at e
            rw [e.2]
            exact h


theorem print_usage_outcome_args (st : ParseState) :
    (print_usage st).outcome.args = st.outcome.args := by
  unfold print_usage
  split <;> rfl

theorem pairs_tokens_even_offset (P : List (String × String)) (hP : well_formed_pairs P = true) :
    ∀ (k : Nat) (a : String), (pairs_tokens P)[2 * k]? = some a → is_value_flag a = true := by
  induction P with
  | nil => intro k a h; simp [pairs_tokens] at h
  | cons p ps ih =>
    rw [well_formed_pairs_cons] at hP
    intro k a h
    cases k with
    | zero =>
      simp only [pairs_tokens, Nat.mul_zero, List.getElem?_cons_zero, Option.some.injEq] at h
      rw [← h]
      exact hP.1
    | succ k =>
      have e : 2 * (k + 1) = 2 * k + 1 + 1 := by omega
      rw [e] at h
      simp only [pairs_tokens, List.getElem?_cons_succ] at h
      exact ih hP.2 k a h

/-- Claim C12: the status returned by `parse_arguments` depends only on the
shape of the token list `T` after the program name. It is ok exactly when `T` is
a concatenation of (value flag, value) pairs, and then `T` has even length with
a value flag at every even offset; it is exit exactly when `T` is such pairs,
then `-h` or `--help`, then any tokens; it is failure exactly in every other
case. -/
theorem parse_arguments_status_by_shape (prog : String) (T : List String) :
    ∃ out, parse_arguments (prog :: T) = Except.ok out ∧
      (out.args.parse_result = ParseReturn.ok ↔
        ∃ P, well_formed_pairs P = true ∧ T = pairs_tokens P) ∧
      (out.args.parse_result = ParseReturn.exit ↔
        ∃ P h R, well_formed_pairs P = true ∧ is_help h = true ∧
          T = pairs_tokens P ++ h :: R) ∧
      (out.args.parse_result = ParseReturn.failure ↔
        (¬ ∃ P, well_formed_pairs P = true ∧ T = pairs_tokens P) ∧
        (¬ ∃ P h R, well_formed_pairs P = true ∧ is_help h = true ∧
          T = pairs_tokens P ++ h :: R)) ∧
      (out.args.parse_result = ParseReturn.ok →
        T.length % 2 = 0 ∧
        ∀ (k : Nat) (a : String), T[2 * k]? = some a → is_value_flag a = true) := by
  refine ⟨_, parse_arguments_cons prog T, ?_⟩
  have hs := scan_tokens_status T.length T ParseState.initial (le_refl _) rfl
  have e : (print_usage (scan_tokens T ParseState.initial)).outcome.args.parse_result =
      (scan_tokens T ParseState.initial).parse_result := by
    rw [print_usage_outcome_args]
    rfl
  rw [e]
  refine ⟨hs.1, hs.2, ?_, ?_⟩
  · rw [← hs.1, ← hs.2]
    cases (scan_tokens T ParseState.initial).parse_result <;> simp
  · intro h
    obtain ⟨P, hP, hT⟩ := hs.1.mp h
    subst hT
    exact ⟨by rw [pairs_tokens_length]; omega, pairs_tokens_even_offset P hP⟩

theorem parse_arguments_status_by_shape_witness :
    ∃ out, parse_arguments ["app", "-d", "1", "-h", "x"] = Except.ok out ∧
      out.args.parse_result = ParseReturn.exit ∧
      out.args.parse_result ≠ ParseReturn.ok ∧
      ¬ ∃ P, well_formed_pairs P = true ∧ ["-d", "1", "-h", "x"] = pairs_tokens P := by
  obtain ⟨out, h, hok, hexit, _, _⟩ :=
    parse_arguments_status_by_shape "app" ["-d", "1", "-h", "x"]
  have he : out.args.parse_result = ParseReturn.exit :=
    hexit.mpr ⟨[("-d", "1")], "-h", ["x"], by decide, by decide, rfl⟩
  have hne : out.args.parse_result ≠ ParseReturn.ok := by rw [he]; decide
  exact ⟨out, h, he, hne, fun hP => hne (hok.mpr hP)⟩


/-! ## Help cuts the scan short -/

/-- Claim C13: for the program name, then well-formed (value flag, value) pairs
`P`, then `-h` or `--help`, then any tokens, `parse_arguments` returns status
exit with every other field equal to the one of parsing the program name and
`P` alone; for two tails `R1` and `R2` the whole outcome, fields and printed
text, is the same. -/
theorem parse_arguments_help_ignores_tail (prog : String) (P : List (String × String))
    (h : String) (R1 R2 : List String)
    (hP : well_formed_pairs P = true) (hh : is_help h = true) :
    ∃ out out0,
      parse_arguments (prog :: (pairs_tokens P ++ h :: R1)) = Except.ok out ∧
      parse_arguments (prog :: (pairs_tokens P ++ h :: R2)) = Except.ok out ∧
      parse_arguments (prog :: pairs_tokens P) = Except.ok out0 ∧
      out.args.parse_result = ParseReturn.exit ∧
      out.args.domain_id = out0.args.domain_id ∧
      out.args.sample_count = out0.args.sample_count ∧
      out.args.max_string_length = out0.args.max_string_length ∧
      out.args.compression_id = out0.args.compression_id ∧
      out.args.input_file = out0.args.input_file ∧
      out.args.verbosity = out0.args.verbosity ∧
      out.cout = ["Example application.", usage_text] := by
  have hv := is_value_flag_of_help h hh
  refine ⟨_, _, parse_arguments_stop prog P h R1 hP hv, parse_arguments_stop prog P h R2 hP hv,
    parse_arguments_pairs prog P hP, ?_⟩
  rw [stop_state_help _ _ hh]
  refine ⟨rfl, rfl, rfl, rfl, rfl, rfl, rfl, ?_⟩
  have hc := (apply_pairs_frame P ParseState.initial).2.2
  simp only [help_branch, print_usage, if_true, ParseState.outcome, hc]
  rfl

theorem parse_arguments_help_ignores_tail_witness :
    ∃ out out0,
      parse_arguments ("app" :: (pairs_tokens [("-s", "4")] ++ "-h" :: ["-s", "9"])) =
        Except.ok out ∧
      parse_arguments ("app" :: (pairs_tokens [("-s", "4")] ++ "-h" :: ["bogus"])) =
        Except.ok out ∧
      parse_arguments ("app" :: pairs_tokens [("-s", "4")]) = Except.ok out0 ∧
      out.args.parse_result = ParseReturn.exit ∧
      out.args.domain_id = out0.args.domain_id ∧
      out.args.sample_count = out0.args.sample_count ∧
      out.args.max_string_length = out0.args.max_string_length ∧
      out.args.compression_id = out0.args.compression_id ∧
      out.args.input_file = out0.args.input_file ∧
      out.args.verbosity = out0.args.verbosity ∧
      out.cout = ["Example application.", usage_text] :=
  parse_arguments_help_ignores_tail "app" [("-s", "4")] "-h" ["-s", "9"] ["bogus"]
    (by decide) (by decide)


/-! ## Termination of the scan loop -/

theorem split_at_index (argv : List String) (i : Nat) (h : i < argv.length) :
    ∃ pre a post, argv = pre ++ a :: post ∧ pre.length = i := by
  refine ⟨argv.take i, argv[i], argv.drop (i + 1), ?_, ?_⟩
  · rw [List.getElem_cons_drop, List.take_append_drop]
  · rw [List.length_take]; omega

theorem loop_body_step (argv : List String) (st : ParseState)
    (h : st.arg_processing < argv.length) :
    ∃ flow st', loop_body argv st = Except.ok (flow, st') ∧
      ((flow = Flow.stop ∧ st'.arg_processing = st.arg_processing) ∨
       (flow = Flow.next ∧ st'.arg_processing = st.arg_processing + 2 ∧
         st.arg_processing + 1 < argv.length)) := by
  obtain ⟨pre, a, post, rfl, hpre⟩ := split_at_index argv st.arg_processing h
  cases post with
  | nil =>
    refine ⟨_, _, loop_body_last pre a st hpre.symm, Or.inl ⟨rfl, ?_⟩⟩
    unfold stop_state
    split <;> rfl
  | cons v rest =>
    rw [loop_body_pair pre a v rest st hpre.symm]
    cases hf : flag_store a with
    | none =>
      refine ⟨_, _, rfl, Or.inl ⟨rfl, ?_⟩⟩
      unfold stop_state
      split <;> rfl
    | some f =>
      refine ⟨_, _, rfl, Or.inr ⟨rfl, rfl, ?_⟩⟩
      simp only [List.length_append, List.length_cons]
      omega

theorem loop_runs_le (fuel : Nat) :
    ∀ (pre toks : List String) (st : ParseState),
      st.arg_processing = pre.length →
      loop_runs (pre ++ toks) fuel st ≤ (toks.length + 1) / 2 := by
  induction fuel with
  | zero => intro pre toks st _; simp [loop_runs]
  | succ fuel ih =>
    intro pre toks st hi
    match toks with
    | [] => simp [loop_runs, hi]
    | [a] =>
      have hlt : st.arg_processing < (pre ++ [a]).length := by simp [hi]
      simp only [loop_runs, hlt, if_true, loop_body_last pre a st hi, List.length_cons,
        List.length_nil]
      omega
    | a :: v :: rest =>
      have hlt : st.arg_processing < (pre ++ a :: v :: rest).length := by simp [hi]
      simp only [loop_runs, hlt, if_true, loop_body_pair pre a v rest st hi]
      cases hf : flag_store a with
      | none => simp only [List.length_cons]; omega
      | some f =>
        simp only [List.length_cons]
        have e : pre ++ a :: v :: rest = (pre ++ [a, v]) ++ rest := by simp
        rw [e]
        have := ih (pre ++ [a, v]) rest (advance f v st) (by simp [advance, hi])
        omega

/-- Claim C14: the scan loop terminates on every argument list. A run of the
body at an index below `argc` reads inside `argv` only and either stops the scan,
leaving the index where it is, or advances the index by exactly 2, and then
`argv[i + 1]` was inside `argv` as well. The loop returns, without a fault, when
given floor((argc - 1) / 2) + 1 runs of the body or more, always with the same
state; and the body runs at most that many times. -/
theorem scan_loop_terminates (argv : List String) :
    (∀ st : ParseState, st.arg_processing < argv.length →
      ∃ flow st', loop_body argv st = Except.ok (flow, st') ∧
        ((flow = Flow.stop ∧ st'.arg_processing = st.arg_processing) ∨
         (flow = Flow.next ∧ st'.arg_processing = st.arg_processing + 2 ∧
           st.arg_processing + 1 < argv.length))) ∧
    (∃ st, ∀ fuel : Nat, (((argv.length : Int) - 1) / 2 + 1).toNat ≤ fuel →
      scan_loop argv fuel ParseState.initial = Except.ok st) ∧
    (∀ fuel : Nat, loop_runs argv fuel ParseState.initial ≤
      (((argv.length : Int) - 1) / 2 + 1).toNat) := by
  refine ⟨loop_body_step argv, ?_, ?_⟩
  · cases argv with
    | nil =>
      refine ⟨ParseState.initial, fun fuel _ => ?_⟩
      cases fuel <;> rfl
    | cons prog T =>
      refine ⟨scan_tokens T ParseState.initial, fun fuel hfuel => ?_⟩
      have := scan_loop_eq_scan_tokens fuel [prog] T ParseState.initial rfl (by
        simp only [List.length_cons] at hfuel
        push_cast at hfuel
        omega)
      exact this
  · intro fuel
    cases argv with
    | nil => cases fuel <;> simp [loop_runs, ParseState.initial]
    | cons prog T =>
      have := loop_runs_le fuel [prog] T ParseState.initial rfl
      have e : [prog] ++ T = prog :: T := rfl
      rw [e] at this
      simp only [List.length_cons]
      push_cast
      omega

theorem scan_loop_terminates_witness :
    (∃ flow st', loop_body ["app", "-d", "1", "x"] ParseState.initial = Except.ok (flow, st') ∧
        ((flow = Flow.stop ∧ st'.arg_processing = ParseState.initial.arg_processing) ∨
         (flow = Flow.next ∧ st'.arg_processing = ParseState.initial.arg_processing + 2 ∧
           ParseState.initial.arg_processing + 1 < ["app", "-d", "1", "x"].length))) ∧
    (∃ st, scan_loop ["app", "-d", "1", "x"] 2 ParseState.initial = Except.ok st ∧
      scan_loop ["app", "-d", "1", "x"] 4 ParseState.initial = Except.ok st) ∧
    loop_runs ["app", "-d", "1", "x"] 4 ParseState.initial ≤ 2 := by
  have h := scan_loop_terminates ["app", "-d", "1", "x"]
  obtain ⟨st, hst⟩ := h.2.1
  exact ⟨h.1 ParseState.initial (by decide), ⟨st, hst 2 (by decide), hst 4 (by decide)⟩,
    h.2.2 4⟩


/-! ## Appending a pair -/

theorem set_verbosity_eq_level (n : Int) : set_verbosity n = level_of_value n := by
  unfold level_of_value
  by_cases hneg : n < 0
  · rw [if_pos hneg]
    unfold set_verbosity
    rw [if_neg (by omega), if_neg (by omega), if_neg (by omega), if_neg (by omega)]
  · rw [if_neg hneg]
    obtain ⟨m, rfl⟩ := Int.eq_ofNat_of_zero_le (by omega : 0 ≤ n)
    rw [Int.toNat_ofNat]
    match m with
    | 0 => rfl
    | 1 => rfl
    | 2 => rfl
    | 3 => rfl
    | k + 4 =>
      unfold set_verbosity
      rw [if_neg (by omega), if_neg (by omega), if_neg (by omega), if_neg (by omega)]
      rfl

theorem apply_pair_outcome (f v : String) (st : ParseState) (hf : is_value_flag f = true) :
    (apply_pair (f, v) st).outcome =
      { args := store_field f v st.outcome.args, cout := st.cout } := by
  have hl := set_verbosity_eq_level (atoi v)
  simp only [is_value_flag, decide_eq_true_eq, List.mem_cons, List.mem_singleton,
    List.not_mem_nil, or_false] at hf
  rcases hf with rfl | rfl | rfl | rfl | rfl | rfl | rfl | rfl | rfl | rfl | rfl | rfl
  · rfl
  · rfl
  · rfl
  · rfl
  · rfl
  · rfl
  · rfl
  · rfl
  · rfl
  · rfl
  · have e := apply_pair_verbosity "-v" v st (Or.inl rfl)
    rw [e, hl]
    rfl
  · have e := apply_pair_verbosity "--verbosity" v st (Or.inr rfl)
    rw [e, hl]
    rfl

/-- Claim C15, as the code has it: when `parse_arguments` returns status ok on
an argument list that is not empty (its first entry is the program name), then
on the same list followed by a value flag `f` and a value token `v` it returns
status ok as well and prints nothing more; the field that belongs to `f` is set
from `v` (the integer read from `v` modulo `2^32` for `-d`, `-s`, `-m`, the
token itself for `-c`, `-i`, the level of the integer read from `v` for `-v`)
and every other field is the one of the first parse. -/
theorem parse_arguments_append_pair (A : List String) (f v : String)
    (out : ParseOutcome)
    (hne : A ≠ [])
    (hA : parse_arguments A = Except.ok out)
    (hok : out.args.parse_result = ParseReturn.ok)
    (hf : is_value_flag f = true) :
    ∃ out', parse_arguments (A ++ [f, v]) = Except.ok out' ∧
      out'.args.parse_result = ParseReturn.ok ∧
      out'.args = store_field f v out.args ∧
      out'.cout = out.cout := by
  cases A with
  | nil => exact absurd rfl hne
  | cons prog T =>
    rw [parse_arguments_cons] at hA
    injection hA with hA
    have hst : (scan_tokens T ParseState.initial).parse_result = ParseReturn.ok := by
      rw [← hA, print_usage_outcome_args] at hok
      exact hok
    obtain ⟨P, hP, rfl⟩ :=
      (scan_tokens_status _ T ParseState.initial (le_refl _) rfl).1.mp hst
    have hfr := apply_pairs_frame P ParseState.initial
    rw [scan_tokens_pairs_only _ _ hP, print_usage_quiet _ hfr.1] at hA
    have hwf := well_formed_pairs_snoc P f v hP hf
    have hfr' := apply_pairs_frame (P ++ [(f, v)]) ParseState.initial
    refine ⟨_, by rw [List.cons_append, ← pairs_tokens_snoc];
                  exact parse_arguments_pairs prog _ hwf, hfr'.2.1, ?_⟩
    rw [apply_pairs_snoc, apply_pair_outcome f v _ hf, ← hA]
    exact ⟨rfl, rfl⟩

theorem parse_arguments_append_pair_witness :
    (∃ out', parse_arguments (["app", "-d", "1"] ++ ["-d", "2"]) = Except.ok out' ∧
      out'.args.parse_result = ParseReturn.ok ∧ out'.args.domain_id = 2 ∧
      out'.args.verbosity = Verbosity.EXCEPTION) ∧
    (∃ out', parse_arguments (["app", "-d", "1"] ++ ["-v", "2"]) = Except.ok out' ∧
      out'.args.parse_result = ParseReturn.ok ∧ out'.args.domain_id = 1 ∧
      out'.args.verbosity = Verbosity.WARNING) := by
  have hA : parse_arguments ["app", "-d", "1"] = Except.ok
      { args :=
          { parse_result := ParseReturn.ok
            domain_id := 1
            sample_count := 4294967295
            max_string_length := 4096
            compression_id := ""
            input_file := ""
            verbosity := Verbosity.EXCEPTION }
        cout := [] } := rfl
  obtain ⟨o1, h1, hok1, hargs1, _⟩ :=
    parse_arguments_append_pair ["app", "-d", "1"] "-d" "2" _ (by decide) hA rfl (by decide)
  obtain ⟨o2, h2, hok2, hargs2, _⟩ :=
    parse_arguments_append_pair ["app", "-d", "1"] "-v" "2" _ (by decide) hA rfl (by decide)
  refine ⟨⟨o1, h1, hok1, ?_, ?_⟩, ⟨o2, h2, hok2, ?_, ?_⟩⟩
  · rw [hargs1]; rfl
  · rw [hargs1]; rfl
  · rw [hargs2]; rfl
  · rw [hargs2]; rfl

/-- Claim C15 as stated fails on the empty argument list: its parse is ok, and
with `-d 5` appended the list is `-d 5`, where `-d` sits in the place of the
program name, `5` is scanned as a flag and the status is failure. -/
theorem append_pair_to_empty_list :
    (∃ out, parse_arguments [] = Except.ok out ∧
      out.args.parse_result = ParseReturn.ok) ∧
    is_value_flag "-d" = true ∧
    (∃ out', parse_arguments ([] ++ ["-d", "5"]) = Except.ok out' ∧
      out'.args.parse_result = ParseReturn.failure ∧
      out'.args.domain_id = 0) :=
  ⟨⟨_, rfl, rfl⟩, by decide, ⟨_, rfl, rfl, rfl⟩⟩


/-! ## Tokens that begin with an integer -/

theorem dropWhile_isspace_append (ws x : List Char) (hws : ws.all isspace = true) :
    (ws ++ x).dropWhile isspace = x.dropWhile isspace := by
  induction ws with
  | nil => rfl
  | cons w ws ih =>
    simp only [List.all_cons, Bool.and_eq_true] at hws
    simp only [List.cons_append, List.dropWhile_cons, hws.1, if_true]
    exact ih hws.2

theorem atoi_parts_skip (ws x : List Char) (hws : ws.all isspace = true) :
    atoi_parts (ws ++ x) = atoi_parts x := by
  unfold atoi_parts
  rw [dropWhile_isspace_append ws x hws]

theorem atoi_parts_plus (cs : List Char) :
    atoi_parts ('+' :: cs) = (false, digits_value cs 0) := by
  unfold atoi_parts
  have : isspace '+' = false := by decide
  simp only [List.dropWhile, this]

theorem digits_value_prefix (ds rest : List Char) (hdig : ds.all isdigit = true)
    (hrest : ∀ c ∈ rest.head?, isdigit c = false) (acc : Nat) :
    digits_value (ds ++ rest) acc = ds.foldl (fun a c => a * 10 + (c.toNat - 48)) acc := by
  induction ds generalizing acc with
  | nil =>
    cases rest with
    | nil => rfl
    | cons r rs =>
      have := hrest r (by simp)
      simp [digits_value, this]
  | cons d ds ih =>
    simp only [List.all_cons, Bool.and_eq_true] at hdig
    simp only [List.cons_append, digits_value, hdig.1, if_true, List.foldl_cons]
    exact ih hdig.2 _

theorem leading_integer_of_parts (ws sign ds rest : List Char)
    (hws : ws.all isspace = true)
    (hsign : sign = [] ∨ sign = ['+'] ∨ sign = ['-'])
    (hds : ds ≠ []) (hdig : ds.all isdigit = true)
    (hrest : ∀ c ∈ rest.head?, isdigit c = false) :
    leading_integer (String.mk (ws ++ sign ++ ds ++ rest)) =
      if sign = ['-'] then -(decimal_value ds : Int) else (decimal_value ds : Int) := by
  have hval := digits_value_prefix ds rest hdig hrest 0
  have key : atoi_parts (ws ++ sign ++ ds ++ rest) =
      (decide (sign = ['-']), decimal_value ds) := by
    rw [List.append_assoc, List.append_assoc, atoi_parts_skip _ _ hws]
    rcases hsign with rfl | rfl | rfl
    · cases ds with
      | nil => exact absurd rfl hds
      | cons d ds' =>
        simp only [List.all_cons, Bool.and_eq_true] at hdig
        rw [List.nil_append, List.cons_append, atoi_parts_digit d _ hdig.1,
          ← List.cons_append, hval]
        rfl
    · rw [List.singleton_append, atoi_parts_plus, hval]
      rfl
    · rw [List.singleton_append, atoi_parts_minus, hval]
      rfl
  have hl : (String.mk (ws ++ sign ++ ds ++ rest)).toList = ws ++ sign ++ ds ++ rest := rfl
  unfold leading_integer
  simp only [hl, key, decide_eq_true_eq]

theorem atoi_eq_leading_integer (tok : String)
    (hmin : INT_MIN ≤ leading_integer tok) (hmax : leading_integer tok ≤ INT_MAX) :
    atoi tok = leading_integer tok :=
  to_int_clamp_of_range _ hmin hmax


theorem to_unsigned_of_int (n : Int) (hmin : INT_MIN ≤ n) (hmax : n ≤ INT_MAX) :
    ((to_unsigned n : Nat) : Int) = n % 4294967296 ∧
    (0 ≤ n → ((to_unsigned n : Nat) : Int) = n) ∧
    (n < 0 → ((to_unsigned n : Nat) : Int) = n + 4294967296) := by
  unfold INT_MIN at hmin
  unfold INT_MAX at hmax
  unfold to_unsigned
  refine ⟨by omega, fun _ => by omega, fun _ => by omega⟩

/-- Claim C16: for a numeric flag `-d`, `-s` or `-m` (or its long form) whose
value token is white space, an optional sign, one or more digits and then no
further digit, with the signed value `n` of the digits in the range of `int`,
the parse returns status ok and the field of the flag holds `n` modulo `2^32`:
`n` itself when `n` is not negative, `n + 2^32` when it is. -/
theorem parse_arguments_numeric_value (prog : String) (P : List (String × String))
    (f : String) (ws sign ds rest : List Char) (n : Int)
    (hP : well_formed_pairs P = true)
    (hf : f ∈ ["-d", "--domain", "-s", "--sample-count", "-m", "--max-string-length"])
    (hws : ws.all isspace = true)
    (hsign : sign = [] ∨ sign = ['+'] ∨ sign = ['-'])
    (hds : ds ≠ []) (hdig : ds.all isdigit = true)
    (hrest : ∀ c ∈ rest.head?, isdigit c = false)
    (hn : n = if sign = ['-'] then -(decimal_value ds : Int) else (decimal_value ds : Int))
    (hmin : INT_MIN ≤ n) (hmax : n ≤ INT_MAX) :
    ∃ out, parse_arguments
        (prog :: (pairs_tokens P ++ [f, String.mk (ws ++ sign ++ ds ++ rest)])) =
          Except.ok out ∧
      out.args.parse_result = ParseReturn.ok ∧
      (f ∈ ["-d", "--domain"] → (out.args.domain_id : Int) = n % 4294967296) ∧
      (f ∈ ["-s", "--sample-count"] → (out.args.sample_count : Int) = n % 4294967296) ∧
      (f ∈ ["-m", "--max-string-length"] →
        (out.args.max_string_length : Int) = n % 4294967296) ∧
      (0 ≤ n → n % 4294967296 = n) ∧
      (n < 0 → n % 4294967296 = n + 4294967296) := by
  have hvf : is_value_flag f = true := by
    simp only [List.mem_cons, List.mem_singleton, List.not_mem_nil, or_false] at hf
    rcases hf with rfl | rfl | rfl | rfl | rfl | rfl <;> decide
  have hli := leading_integer_of_parts ws sign ds rest hws hsign hds hdig hrest
  rw [← hn] at hli
  have hat : atoi (String.mk (ws ++ sign ++ ds ++ rest)) = n := by
    rw [atoi_eq_leading_integer _ (by rw [hli]; exact hmin) (by rw [hli]; exact hmax), hli]
  have hu := to_unsigned_of_int n hmin hmax
  have hwf := well_formed_pairs_snoc P f (String.mk (ws ++ sign ++ ds ++ rest)) hP hvf
  have hfr := apply_pairs_frame (P ++ [(f, String.mk (ws ++ sign ++ ds ++ rest))])
    ParseState.initial
  refine ⟨_, by rw [← pairs_tokens_snoc]; exact parse_arguments_pairs prog _ hwf,
    hfr.2.1, ?_, ?_, ?_, ?_, ?_⟩
  · intro h
    simp only [List.mem_cons, List.mem_singleton, List.not_mem_nil, or_false] at h
    rw [apply_pairs_snoc, apply_pair_domain f _ _ h]
    show ((to_unsigned (atoi _) : Nat) : Int) = _
    rw [hat, hu.1]
  · intro h
    simp only [List.mem_cons, List.mem_singleton, List.not_mem_nil, or_false] at h
    rw [apply_pairs_snoc, apply_pair_sample_count f _ _ h]
    show ((to_unsigned (atoi _) : Nat) : Int) = _
    rw [hat, hu.1]
  · intro h
    simp only [List.mem_cons, List.mem_singleton, List.not_mem_nil, or_false] at h
    rw [apply_pairs_snoc, apply_pair_max_string_length f _ _ h]
    show ((to_unsigned (atoi _) : Nat) : Int) = _
    rw [hat, hu.1]
  · intro h
    rw [← hu.1]
    exact hu.2.1 h
  · intro h
    rw [← hu.1]
    exact hu.2.2 h

theorem parse_arguments_numeric_value_witness :
    ∃ out, parse_arguments ["app", "-s", "-1"] = Except.ok out ∧
      out.args.parse_result = ParseReturn.ok ∧
      out.args.sample_count = 4294967295 ∧
      out.args.sample_count = ParseState.initial.sample_count := by
  obtain ⟨out, h, hok, _, hs, _, _, _⟩ :=
    parse_arguments_numeric_value "app" [] "-s" [] ['-'] ['1'] [] (-1)
      (by decide) (by decide) (by decide) (by decide) (by decide) (by decide) (by decide)
      (by decide) (by decide) (by decide)
  have hv : (out.args.sample_count : Int) = 4294967295 := by
    rw [hs (by decide)]
    decide
  have hv' : out.args.sample_count = 4294967295 := by exact_mod_cast hv
  exact ⟨out, h, hok, hv', by rw [hv']; rfl⟩


/-! ## Verbosity for tokens without an integer -/

theorem takes_default_leading (tok : String) (h : takes_default (atoi tok) = true) :
    begins_with_integer tok = true ∧ (leading_integer tok < 0 ∨ 3 < leading_integer tok) := by
  simp only [takes_default, decide_eq_true_eq] at h
  constructor
  · cases hb : begins_with_integer tok with
    | true => rfl
    | false => exact absurd (atoi_of_no_integer tok hb) h.1
  · by_contra hc
    have hr : 0 ≤ leading_integer tok ∧ leading_integer tok ≤ 3 := by omega
    have := atoi_eq_leading_integer tok (by unfold INT_MIN; omega) (by unfold INT_MAX; omega)
    rw [this] at h
    omega

/-- Claim C17: for `-v` or `--verbosity` with a value token that does not begin
with a decimal integer, `parse_arguments` returns status ok with verbosity
`SILENT`, because `atoi` gives 0 and the `default:` label of `set_verbosity` is
not taken; that label is taken only for tokens that begin with an integer, and
this integer is below 0 or above 3. -/
theorem parse_arguments_verbosity_non_numeric :
    (∀ (prog : String) (P : List (String × String)) (f tok : String),
      well_formed_pairs P = true → (f = "-v" ∨ f = "--verbosity") →
      begins_with_integer tok = false →
      ∃ out, parse_arguments (prog :: (pairs_tokens P ++ [f, tok])) = Except.ok out ∧
        out.args.parse_result = ParseReturn.ok ∧
        out.args.verbosity = Verbosity.SILENT ∧
        out.args.verbosity ≠ Verbosity.EXCEPTION ∧
        atoi tok = 0 ∧ takes_default (atoi tok) = false) ∧
    (∀ tok : String, takes_default (atoi tok) = true →
      set_verbosity (atoi tok) = Verbosity.EXCEPTION ∧
      begins_with_integer tok = true ∧
      (leading_integer tok < 0 ∨ 3 < leading_integer tok)) := by
  constructor
  · intro prog P f tok hP hf htok
    have hvf : is_value_flag f = true := is_value_flag_of_form _ _ _ hf (by decide) (by decide)
    have hz := atoi_of_no_integer tok htok
    have hwf := well_formed_pairs_snoc P f tok hP hvf
    have hfr := apply_pairs_frame (P ++ [(f, tok)]) ParseState.initial
    have hverb : (apply_pairs (P ++ [(f, tok)]) ParseState.initial).outcome.args.verbosity =
        Verbosity.SILENT := by
      rw [apply_pairs_snoc, apply_pair_verbosity f tok _ hf]
      show set_verbosity (atoi tok) = Verbosity.SILENT
      rw [hz]
      rfl
    refine ⟨_, by rw [← pairs_tokens_snoc]; exact parse_arguments_pairs prog _ hwf,
      hfr.2.1, hverb, by rw [hverb]; decide, hz, by rw [hz]; rfl⟩
  · intro tok h
    have hl := takes_default_leading tok h
    refine ⟨?_, hl.1, hl.2⟩
    simp only [takes_default, decide_eq_true_eq] at h
    unfold set_verbosity
    rw [if_neg h.1, if_neg h.2.1, if_neg h.2.2.1, if_neg h.2.2.2]

theorem parse_arguments_verbosity_non_numeric_witness :
    (∃ out, parse_arguments ["app", "-v", "abc"] = Except.ok out ∧
      out.args.parse_result = ParseReturn.ok ∧
      out.args.verbosity = Verbosity.SILENT) ∧
    (begins_with_integer "7" = true ∧ (leading_integer "7" < 0 ∨ 3 < leading_integer "7")) := by
  obtain ⟨out, h, hok, hv, _⟩ :=
    parse_arguments_verbosity_non_numeric.1 "app" [] "-v" "abc" (by decide) (Or.inl rfl)
      (by decide)
  obtain ⟨_, h2⟩ := parse_arguments_verbosity_non_numeric.2 "7" (by decide)
  exact ⟨⟨out, h, hok, hv⟩, h2⟩

end application
